import Mathlib

/-!
Verification of the identity reconciliation engine of the external-name
backup/restore composition function (`fn.go`, `store.go`, `mock_store.go`).

The Go code operates on protobuf `structpb.Struct` values: string-keyed maps
whose values are null/number/string/bool/struct/list.  We embed these as
association lists of `String × Value`.  Go map reads (`m[k]`), writes
(`m[k] = v`) and deletes (`delete(m, k)`) become `alookup`, `aset`, `adel`.
A nil pointer (nil struct, nil resource) is `Option.none`; a nil map and an
empty map behave identically for reads and the code allocates before every
write, so both are the empty list.

The store backend is modelled by the repository's own mock store
(`mock_store.go`), whose operations are pure map updates that never fail.
-/

set_option linter.unusedVariables false

namespace ENBR

/-- Embedding of `structpb.Value`.  `vnull` stands for the null, number and
bool kinds together: the Go accessors `GetStringValue`, `GetStructValue` and
`GetListValue` return the zero value (`""` / nil / nil) on all of them. -/
inductive Value : Type where
  | vstr : String → Value
  | vstruct : List (String × Value) → Value
  | vlist : List Value → Value
  | vnull : Value
  deriving Repr

/-- Fields of a `structpb.Struct`: a string-keyed map embedded as an
association list with unique keys. -/
abbrev Fields := List (String × Value)

/-- Go map read `m[k]`: the value bound to `k`, if any. -/
def alookup {β : Type} (l : List (String × β)) (k : String) : Option β :=
  (l.find? (fun p => p.1 == k)).map (fun p => p.2)

/-- Go map write `m[k] = v`: replace the binding for `k` or append it. -/
def aset {β : Type} : List (String × β) → String → β → List (String × β)
  | [], k, v => [(k, v)]
  | x :: xs, k, v => if x.1 = k then (k, v) :: xs else x :: aset xs k v

/-- Go map delete `delete(m, k)`. -/
def adel {β : Type} (l : List (String × β)) (k : String) : List (String × β) :=
  l.filter (fun p => p.1 != k)

/-- `Value.GetStringValue`: the string payload, or `""` for any other kind. -/
def Value.getStringValue : Value → String
  | .vstr s => s
  | _ => ""

/-- `Value.GetStructValue`: the struct payload, or nil for any other kind. -/
def Value.getStructValue : Value → Option Fields
  | .vstruct fs => some fs
  | _ => none

/-- `Value.GetListValue`: the list payload, or nil for any other kind. -/
def Value.getListValue : Value → Option (List Value)
  | .vlist vs => some vs
  | _ => none

/-- `GetStringValue` applied to a possibly-missing map entry (a missing Go
map entry is a nil `*Value`, whose `GetStringValue` is `""`). -/
def optStringValue : Option Value → String
  | some v => v.getStringValue
  | none => ""

/-- `GetStructValue` applied to a possibly-missing map entry. -/
def optStructValue : Option Value → Option Fields
  | some v => v.getStructValue
  | none => none

/-- `GetListValue` applied to a possibly-missing map entry. -/
def optListValue : Option Value → Option (List Value)
  | some v => v.getListValue
  | none => none

end ENBR

namespace ENBR

/-! Tracking and configuration keys (the `const` block of `fn.go`).  The Go
constant names end in a word the Lean development shortens to `Ann`. -/

def StoredExternalNameAnn : String := "fn.crossplane.io/stored-external-name"

def ExternalNameStoredAnn : String := "fn.crossplane.io/external-name-stored"

def ExternalNameDeletedAnn : String := "fn.crossplane.io/external-name-deleted"

def ExternalNameRestoredAnn : String := "fn.crossplane.io/external-name-restored"

def StoredResourceNameAnn : String := "fn.crossplane.io/stored-resource-name"

def ResourceNameStoredAnn : String := "fn.crossplane.io/resource-name-stored"

def ResourceNameRestoredAnn : String := "fn.crossplane.io/resource-name-restored"

def EnableExternalStoreAnn : String := "fn.crossplane.io/enable-external-store"

def PurgeExternalStoreAnn : String := "fn.crossplane.io/purge-external-store"

def ClusterIDAnn : String := "fn.crossplane.io/cluster-id"

def StoreTypeAnn : String := "fn.crossplane.io/store-type"

def DynamoDBTableAnn : String := "fn.crossplane.io/dynamodb-table"

def DynamoDBRegionAnn : String := "fn.crossplane.io/dynamodb-region"

def BackupScopeAnn : String := "fn.crossplane.io/backup-scope"

def ConfigMapNamespaceAnn : String := "fn.crossplane.io/configmap-namespace"

def OverrideKindAnn : String := "fn.crossplane.io/override-kind"

def OverrideNamespaceAnn : String := "fn.crossplane.io/override-namespace"

def RequireRestoreAnn : String := "fn.crossplane.io/restore-only"

def BackupScopeOrphaned : String := "orphaned"

def BackupScopeAll : String := "all"

def DeletionPolicyDelete : String := "Delete"

def DeletionPolicyOrphan : String := "Orphan"

/-- A resource of the request: `nil` resource struct (or a struct with a nil
field map, which every guard in `fn.go` treats the same way) is `none`. -/
abbrev Res := Option Fields

/-- The `resources` map of a `fnv1.State`, keyed by pipeline resource name. -/
abbrev Resources := List (String × Res)

/-- The relevant parts of a `fnv1.RunFunctionRequest`: observed and desired
composite resources and the two resource maps. -/
structure RunFunctionRequest where
  observedComposite : Option Fields
  desiredComposite : Option Fields
  observedResources : Resources
  desiredResources : Resources

/-- `getAnnotationValue` (fn.go:274): read `metadata.annotations[ann]` from a
composite resource struct, `""` on any missing or non-struct link. -/
def getAnnValue (composite : Fields) (ann : String) : String :=
  match optStructValue (alookup composite "metadata") with
  | some metadataFields =>
      match optStructValue (alookup metadataFields "annotations") with
      | some annFields => optStringValue (alookup annFields ann)
      | none => ""
  | none => ""

/-- `getMetadataName` (fn.go:292): read `metadata.name` from a resource
struct. -/
def getMetadataName (resource : Fields) : String :=
  match optStructValue (alookup resource "metadata") with
  | some metadataFields => optStringValue (alookup metadataFields "name")
  | none => ""

/-- `getMetadataNameFromResource` (fn.go:306): `metadata.name` of the named
resource, desired copy first, observed copy as fallback. -/
def getMetadataNameFromResource (desired observed : Resources) (resourceName : String) : String :=
  let fromDesired :=
    match alookup desired resourceName with
    | some (some fs) => getMetadataName fs
    | _ => ""
  if fromDesired != "" then fromDesired
  else
    match alookup observed resourceName with
    | some (some fs) => getMetadataName fs
    | _ => ""

/-- `getAnnotationValueFromResource` (fn.go:327): annotation of the named
resource, desired copy first, observed copy as fallback. -/
def getAnnValueFromResource (desired observed : Resources) (resourceName ann : String) : String :=
  let fromDesired :=
    match alookup desired resourceName with
    | some (some fs) => getAnnValue fs ann
    | _ => ""
  if fromDesired != "" then fromDesired
  else
    match alookup observed resourceName with
    | some (some fs) => getAnnValue fs ann
    | _ => ""

/-- `checkEnableAnnotation` (fn.go:348). -/
def checkEnableAnn (composite : Fields) : Bool :=
  let enableValue := getAnnValue composite EnableExternalStoreAnn
  enableValue == "true" || enableValue == "yes" || enableValue == "1"

/-- `shouldEnableExternalStore` (fn.go:255): desired composite first, then
observed composite. -/
def shouldEnableExternalStore (req : RunFunctionRequest) : Bool :=
  (match req.desiredComposite with
   | some c => checkEnableAnn c
   | none => false) ||
  (match req.observedComposite with
   | some c => checkEnableAnn c
   | none => false)

/-- `checkPurgeAnnotation` (fn.go:380). -/
def checkPurgeAnn (composite : Fields) : Bool :=
  let purgeValue := getAnnValue composite PurgeExternalStoreAnn
  purgeValue == "true" || purgeValue == "yes" || purgeValue == "1"

/-- `shouldPurgeExternalStore` (fn.go:361): desired composite first, then
observed composite. -/
def shouldPurgeExternalStore (req : RunFunctionRequest) : Bool :=
  (match req.desiredComposite with
   | some c => checkPurgeAnn c
   | none => false) ||
  (match req.observedComposite with
   | some c => checkPurgeAnn c
   | none => false)

/-- `shouldRequireRestore` (fn.go:395): observed composite first, then
desired; only the exact value `"true"` enables the mode. -/
def shouldRequireRestore (req : RunFunctionRequest) : Bool :=
  (match req.observedComposite with
   | some c => getAnnValue c RequireRestoreAnn == "true"
   | none => false) ||
  (match req.desiredComposite with
   | some c => getAnnValue c RequireRestoreAnn == "true"
   | none => false)

/-- `FunctionConfig` (fn.go:101). -/
structure FunctionConfig where
  clusterID : String
  storeType : String
  dynamoDBTable : String
  dynamoDBRegion : String
  configMapNamespace : String
  backupScope : String
  deriving Repr, DecidableEq

/-- The `getConfigAnnotation` closure of `getConfigFromAnnotations`
(fn.go:129): observed composite first, then desired composite. -/
def getConfigAnn (req : RunFunctionRequest) (ann : String) : String :=
  let fromObserved :=
    match req.observedComposite with
    | some c => getAnnValue c ann
    | none => ""
  if fromObserved != "" then fromObserved
  else
    match req.desiredComposite with
    | some c => getAnnValue c ann
    | none => ""

/-- `getConfigFromAnnotations` (fn.go:111): defaults overridden by non-empty
XR annotation values. -/
def getConfigFromAnns (req : RunFunctionRequest) : FunctionConfig :=
  let pick := fun (ann dflt : String) =>
    let v := getConfigAnn req ann
    if v != "" then v else dflt
  { clusterID := pick ClusterIDAnn "default"
    storeType := pick StoreTypeAnn "awsdynamodb"
    dynamoDBTable := pick DynamoDBTableAnn "external-name-backup"
    dynamoDBRegion := pick DynamoDBRegionAnn "us-west-2"
    configMapNamespace := pick ConfigMapNamespaceAnn "crossplane-system"
    backupScope := pick BackupScopeAnn BackupScopeOrphaned }

/-- The result triple of the `checkDeletionCriteria` closure inside
`shouldDeleteFromExternalStoreWithFallback` (fn.go:523):
`(hasDeletePolicy, hasDeleteManagementPolicy, hasSpec)`. -/
def checkDeletionCriteria (fields : Fields) : Bool × Bool × Bool :=
  match optStructValue (alookup fields "spec") with
  | some specFields =>
      let hasDeletePolicy :=
        optStringValue (alookup specFields "deletionPolicy") == DeletionPolicyDelete
      let hasDeleteManagementPolicy :=
        match optListValue (alookup specFields "managementPolicies") with
        | some vs =>
            vs.any (fun item =>
              item.getStringValue == "*" || item.getStringValue == DeletionPolicyDelete)
        | none => false
      (hasDeletePolicy, hasDeleteManagementPolicy, true)
  | none => (false, false, false)

/-- `shouldDeleteFromExternalStoreWithFallback` (fn.go:521): deletion criteria
from the desired fields, falling back to the observed fields when the desired
copy carries no spec struct and the observed field map is non-empty. -/
def shouldDeleteFromExternalStoreWithFallback (desiredFields observedFields : Fields) : Bool :=
  let r := checkDeletionCriteria desiredFields
  let r :=
    if !r.2.2 && observedFields.length > 0 then
      let r2 := checkDeletionCriteria observedFields
      (r2.1, r2.2.1, r.2.2)
    else r
  r.1 && r.2.1

/-- `shouldProcessResource` (fn.go:574): backup-scope eligibility of one
resource.  Scope `all` admits everything; scope `orphaned` requires a spec
struct and then admits on `deletionPolicy == "Orphan"` OR on the management
policies not naming `"*"`/`"Delete"` (vacuously true when the field is
absent); any other scope admits everything. -/
def shouldProcessResource (fields : Fields) (resourceName backupScope : String) : Bool :=
  if backupScope == BackupScopeAll then true
  else if backupScope == BackupScopeOrphaned then
    match optStructValue (alookup fields "spec") with
    | some specFields =>
        let hasOrphanPolicy :=
          optStringValue (alookup specFields "deletionPolicy") == DeletionPolicyOrphan
        let managementPoliciesOk :=
          match optListValue (alookup specFields "managementPolicies") with
          | some vs =>
              !(vs.any (fun item =>
                item.getStringValue == "*" || item.getStringValue == DeletionPolicyDelete))
          | none => true
        hasOrphanPolicy || managementPoliciesOk
    | none => false
  else true

/-! ### Store model

`ResourceData` is from `store.go`; the store operations are the pure map
updates of `mock_store.go` (`MockResourceStore`), which never return an
error. -/

/-- `ResourceData` (store.go:8): the identity record of one composed
resource. -/
structure ResourceData where
  externalName : String := ""
  resourceName : String := ""
  deriving Repr, DecidableEq

/-- A composition's record set: resource key to identity record. -/
abbrev RecordSet := List (String × ResourceData)

/-- The mock store's data: clusterID to compositionKey to record set
(mock_store.go:16). -/
abbrev MockStore := List (String × List (String × RecordSet))

/-- `MockResourceStore.Save` (mock_store.go:45): replace the whole record set
of one composition. -/
def mockSave (st : MockStore) (clusterID compositionKey : String) (resources : RecordSet) : MockStore :=
  let clusterData := (alookup st clusterID).getD []
  aset st clusterID (aset clusterData compositionKey resources)

/-- `MockResourceStore.Load` (mock_store.go:60): the record set of one
composition, empty when absent (never an error). -/
def mockLoad (st : MockStore) (clusterID compositionKey : String) : RecordSet :=
  match alookup st clusterID with
  | some clusterData =>
      match alookup clusterData compositionKey with
      | some compositionData => compositionData
      | none => []
  | none => []

/-- `MockResourceStore.DeleteResource` (mock_store.go:77): drop one resource
key from a composition, a no-op when absent. -/
def mockDeleteResource (st : MockStore) (clusterID compositionKey resourceKey : String) : MockStore :=
  match alookup st clusterID with
  | some clusterData =>
      match alookup clusterData compositionKey with
      | some compositionData =>
          aset st clusterID (aset clusterData compositionKey (adel compositionData resourceKey))
      | none => st
  | none => st

/-- `MockResourceStore.Purge` (mock_store.go:90): drop the whole composition
entry, a no-op when absent. -/
def mockPurge (st : MockStore) (clusterID compositionKey : String) : MockStore :=
  match alookup st clusterID with
  | some clusterData => aset st clusterID (adel clusterData compositionKey)
  | none => st

/-! ### The reconciliation engine (`RunFunction`, fn.go:630)

The engine mutates the request's desired and observed resource structs in
place; the response produced by `response.To(req, ...)` aliases the
request's desired state, so the returned desired graph is whatever the
request's desired resources hold at return time.  The run is threaded
through an explicit `EngineState`; store calls are recorded as events. -/

/-- A store operation performed during one invocation. -/
inductive StoreEvent : Type where
  | load (clusterID compositionKey : String)
  | save (clusterID compositionKey : String) (records : RecordSet)
  | deleteRes (clusterID compositionKey resourceKey : String)
  | purge (clusterID compositionKey : String)
  deriving Repr, DecidableEq

/-- Whether an event is a `Save` call. -/
def StoreEvent.isSave : StoreEvent → Bool
  | .save _ _ _ => true
  | _ => false

/-- The distinct fatal conditions of the modelled path. -/
inductive FatalReason : Type where
  | unsupportedStoreType
  | requireRestoreNoData
  | requireRestoreNoResourceData
  | requireRestoreNoComposition
  deriving Repr, DecidableEq

/-- Outcome of one invocation.  `externalBackend` marks the DynamoDB and
ConfigMap store branches, whose wire-level clients are outside this model. -/
inductive Outcome : Type where
  | success
  | fatal (reason : FatalReason)
  | externalBackend
  deriving Repr, DecidableEq

/-- What the orchestrator receives: the outcome plus the request state at
return time (the response's desired graph aliases the request's). -/
structure RunResult where
  outcome : Outcome
  desired : Resources
  observed : Resources
  store : MockStore
  events : List StoreEvent

/-- In-flight state of one invocation: the (in-place mutated) resource maps,
the `resourceShouldProcess` cache, the in-memory copy of the composition's
record set (`resourceDataStore[compositionKey]`, `none` once purged), the
backing store and the store-call log. -/
structure EngineState where
  desired : Resources
  observed : Resources
  spCache : List (String × Bool)
  cache : Option RecordSet
  store : MockStore
  events : List StoreEvent

/-- `removeTrackingAnnotationsFromObserved` (fn.go:492): strip the four
capture-tracking keys from the observed copy, touching nothing when any
intermediate container is missing or not a struct. -/
def removeTrackingAnnsFromObserved (observed : Resources) (resourceName : String) : Resources :=
  match alookup observed resourceName with
  | some (some fields) =>
      match optStructValue (alookup fields "metadata") with
      | some metadataFields =>
          match optStructValue (alookup metadataFields "annotations") with
          | some annFields =>
              let annFields := adel annFields StoredExternalNameAnn
              let annFields := adel annFields ExternalNameStoredAnn
              let annFields := adel annFields StoredResourceNameAnn
              let annFields := adel annFields ResourceNameStoredAnn
              aset observed resourceName
                (some (aset fields "metadata"
                  (.vstruct (aset metadataFields "annotations" (.vstruct annFields)))))
          | none => observed
      | none => observed
  | _ => observed

/-- The desired-side mutation of the retire pass (fn.go:930-980): ensure
`metadata.annotations` exists, strip the external-name tracking pair and
stamp the deletion timestamp. -/
def retireMutateFields (timestamp : String) (fields : Fields) : Fields :=
  let fields :=
    if (alookup fields "metadata").isNone then aset fields "metadata" (.vstruct []) else fields
  match optStructValue (alookup fields "metadata") with
  | some metadataFields =>
      let metadataFields :=
        if (alookup metadataFields "annotations").isNone then
          aset metadataFields "annotations" (.vstruct [])
        else metadataFields
      match optStructValue (alookup metadataFields "annotations") with
      | some annFields =>
          let annFields := adel annFields StoredExternalNameAnn
          let annFields := adel annFields ExternalNameStoredAnn
          let annFields := aset annFields ExternalNameDeletedAnn (.vstr timestamp)
          aset fields "metadata"
            (.vstruct (aset metadataFields "annotations" (.vstruct annFields)))
      | none => fields
  | none => fields

/-- The retire decision for one desired member (fn.go:885-900): the stored
external-name tracking annotation is present (desired copy first, observed
fallback) and the deletion criteria hold (desired spec preferred, observed
fallback). -/
def retireDecision (desired observed : Resources) (resourceName : String) : Bool :=
  match alookup desired resourceName with
  | some (some fields) =>
      let hasStoredAnn :=
        getAnnValueFromResource desired observed resourceName StoredExternalNameAnn != ""
      let observedFields : Fields :=
        match alookup observed resourceName with
        | some (some fs) => fs
        | _ => []
      hasStoredAnn && shouldDeleteFromExternalStoreWithFallback fields observedFields
  | _ => false

/-- One desired member of the first pass of `RunFunction` (fn.go:874-983):
when the retire decision holds, delete the key from the store (the mock
delete always succeeds), drop it from the in-memory record set, strip the
tracking annotations from the observed copy and stamp the desired copy. -/
def retireEntry (clusterID compositionKey timestamp : String)
    (st : EngineState) (resourceName : String) : EngineState :=
  if retireDecision st.desired st.observed resourceName then
    match alookup st.desired resourceName with
    | some (some fields) =>
        let store' := mockDeleteResource st.store clusterID compositionKey resourceName
        let cache' :=
          match st.cache with
          | some compositionData => some (adel compositionData resourceName)
          | none => none
        let observed' := removeTrackingAnnsFromObserved st.observed resourceName
        let fields' := retireMutateFields timestamp fields
        { st with
            desired := aset st.desired resourceName (some fields')
            observed := observed'
            cache := cache'
            store := store'
            events := st.events ++ [.deleteRes clusterID compositionKey resourceName] }
    | _ => st
  else st

/-- The empty-composition cleanup after the retire pass (fn.go:985-1002):
when the in-memory record set is present but empty, purge the whole
composition (the mock purge always succeeds, so the local entry is dropped
too). -/
def emptyPurgeCheck (clusterID compositionKey : String) (st : EngineState) : EngineState :=
  match st.cache with
  | some compositionData =>
      if compositionData.isEmpty then
        { st with
            store := mockPurge st.store clusterID compositionKey
            cache := none
            events := st.events ++ [.purge clusterID compositionKey] }
      else st
  | none => st

/-- The desired-side mutation of the restore pass for one member with stored
data (fn.go:1054-1161): ensure `metadata` exists; restore `metadata.name`
when the member has none and the record holds one (stamping the
resource-name tracking pair); restore the external-name annotation when the
member has none and the record holds one (stamping the external-name
tracking pair). -/
def restoreEntryFields (timestamp : String) (storedData : ResourceData)
    (hasExistingResourceName hasExistingExternalName : Bool) (fields : Fields) : Fields :=
  let fields :=
    if (alookup fields "metadata").isNone then aset fields "metadata" (.vstruct []) else fields
  match optStructValue (alookup fields "metadata") with
  | some metadataFields =>
      let metadataFields :=
        if !hasExistingResourceName && storedData.resourceName != "" then
          let metadataFields := aset metadataFields "name" (.vstr storedData.resourceName)
          let metadataFields :=
            if (alookup metadataFields "annotations").isNone then
              aset metadataFields "annotations" (.vstruct [])
            else metadataFields
          match optStructValue (alookup metadataFields "annotations") with
          | some annFields =>
              let annFields := aset annFields StoredResourceNameAnn (.vstr storedData.resourceName)
              let annFields := aset annFields ResourceNameRestoredAnn (.vstr timestamp)
              aset metadataFields "annotations" (.vstruct annFields)
          | none => metadataFields
        else metadataFields
      let metadataFields :=
        if !hasExistingExternalName && storedData.externalName != "" then
          let metadataFields :=
            if (alookup metadataFields "annotations").isNone then
              aset metadataFields "annotations" (.vstruct [])
            else metadataFields
          match optStructValue (alookup metadataFields "annotations") with
          | some annFields =>
              let annFields :=
                aset annFields "crossplane.io/external-name" (.vstr storedData.externalName)
              let annFields := aset annFields StoredExternalNameAnn (.vstr storedData.externalName)
              let annFields := aset annFields ExternalNameRestoredAnn (.vstr timestamp)
              aset metadataFields "annotations" (.vstruct annFields)
          | none => metadataFields
        else metadataFields
      aset fields "metadata" (.vstruct metadataFields)
  | none => fields

/-- One desired member of the restore pass (fn.go:1005-1183).  Returns
`.error` on the two require-restore fatal paths, carrying the state at the
early return. -/
def restoreStep (requireRestore : Bool) (backupScope timestamp : String)
    (st : EngineState) (resourceName : String) :
    Except (EngineState × FatalReason) EngineState :=
  match alookup st.desired resourceName with
  | some (some fields) =>
      let shouldProcess := shouldProcessResource fields resourceName backupScope
      let st :=
        if !requireRestore then { st with spCache := aset st.spCache resourceName shouldProcess }
        else st
      if !shouldProcess && !requireRestore then .ok st
      else
        let hasExistingExternalName :=
          getAnnValueFromResource st.desired st.observed resourceName
            "crossplane.io/external-name" != ""
        let hasExistingResourceName :=
          getMetadataNameFromResource st.desired st.observed resourceName != ""
        match st.cache with
        | some compositionData =>
            match alookup compositionData resourceName with
            | some storedData =>
                let fields' :=
                  restoreEntryFields timestamp storedData
                    hasExistingResourceName hasExistingExternalName fields
                .ok { st with desired := aset st.desired resourceName (some fields') }
            | none =>
                if requireRestore then .error (st, .requireRestoreNoResourceData) else .ok st
        | none =>
            if requireRestore then .error (st, .requireRestoreNoComposition) else .ok st
  | _ => .ok st

/-- The restore pass over the desired member names, stopping at the first
fatal condition (the Go loop returns early). -/
def restorePhase (requireRestore : Bool) (backupScope timestamp : String)
    (st : EngineState) (names : List String) :
    Except (EngineState × FatalReason) EngineState :=
  names.foldlM (fun s n => restoreStep requireRestore backupScope timestamp s n) st

/-- One observed member of the capture pass (fn.go:1187-1267): consult (or
fill) the `resourceShouldProcess` cache, then compare the candidate external
name and resource name against the tracking annotations; a member joins the
new-records batch only when at least one candidate differs. -/
def captureStep (backupScope : String) (acc : RecordSet × EngineState)
    (resourceName : String) : RecordSet × EngineState :=
  let newData := acc.1
  let st := acc.2
  match alookup st.observed resourceName with
  | some (some fields) =>
      let spAndSt : Bool × EngineState :=
        match alookup st.spCache resourceName with
        | some b => (b, st)
        | none =>
            let b := shouldProcessResource fields resourceName backupScope
            (b, { st with spCache := aset st.spCache resourceName b })
      let shouldProcessForStore := spAndSt.1
      let st := spAndSt.2
      let externalNameValue := getAnnValue fields "crossplane.io/external-name"
      let resourceNameValue := getMetadataName fields
      let storedExternalName := getAnnValue fields StoredExternalNameAnn
      let storedResourceName := getAnnValue fields StoredResourceNameAnn
      let shouldStoreExternalName :=
        shouldProcessForStore && externalNameValue != "" && storedExternalName != externalNameValue
      let shouldStoreResourceName :=
        resourceNameValue != "" && storedResourceName != resourceNameValue
      if shouldStoreExternalName || shouldStoreResourceName then
        let data : ResourceData :=
          { externalName := if shouldStoreExternalName then externalNameValue else ""
            resourceName := if shouldStoreResourceName then resourceNameValue else "" }
        (aset newData resourceName data, st)
      else (newData, st)
  | _ => (newData, st)

/-- The capture pass over the observed member names, building the new-records
batch. -/
def capturePhase (backupScope : String) (st : EngineState) (names : List String) :
    RecordSet × EngineState :=
  names.foldl (captureStep backupScope) ([], st)

/-- The per-field merge of the new-records batch onto the in-memory record
set (fn.go:1274-1294): an empty field of a new record keeps the previously
stored value. -/
def mergeRecords (existing newRecs : RecordSet) : RecordSet :=
  newRecs.foldl
    (fun acc p =>
      let ex := (alookup acc p.1).getD {}
      let ex := if p.2.externalName != "" then { ex with externalName := p.2.externalName } else ex
      let ex := if p.2.resourceName != "" then { ex with resourceName := p.2.resourceName } else ex
      aset acc p.1 ex)
    existing

/-- The desired-side stamping after a successful save (fn.go:1329-1396):
ensure `metadata.annotations` and write the capture-tracking pairs that
apply. -/
def stampFields (timestamp : String) (storedData : ResourceData)
    (addExternalNameTracking addResourceNameTracking : Bool) (fields : Fields) : Fields :=
  let fields :=
    if (alookup fields "metadata").isNone then aset fields "metadata" (.vstruct []) else fields
  match optStructValue (alookup fields "metadata") with
  | some metadataFields =>
      let metadataFields :=
        if (alookup metadataFields "annotations").isNone then
          aset metadataFields "annotations" (.vstruct [])
        else metadataFields
      match optStructValue (alookup metadataFields "annotations") with
      | some annFields =>
          let annFields :=
            if addExternalNameTracking then
              aset (aset annFields StoredExternalNameAnn (.vstr storedData.externalName))
                ExternalNameStoredAnn (.vstr timestamp)
            else annFields
          let annFields :=
            if addResourceNameTracking then
              aset (aset annFields StoredResourceNameAnn (.vstr storedData.resourceName))
                ResourceNameStoredAnn (.vstr timestamp)
            else annFields
          aset fields "metadata"
            (.vstruct (aset metadataFields "annotations" (.vstruct annFields)))
      | none => fields
  | none => fields

/-- One desired member of the stamping loop (fn.go:1304-1398): only members
of the new-records batch are stamped; external-name tracking additionally
needs a positive `resourceShouldProcess` cache entry. -/
def stampEntry (timestamp : String) (newData : RecordSet) (spCache : List (String × Bool))
    (desired : Resources) (resourceName : String) : Resources :=
  match alookup desired resourceName with
  | some (some fields) =>
      match alookup newData resourceName with
      | some storedData =>
          let addExternalNameTracking :=
            (match alookup spCache resourceName with
             | some b => b
             | none => false) && storedData.externalName != ""
          let addResourceNameTracking := storedData.resourceName != ""
          if !addExternalNameTracking && !addResourceNameTracking then desired
          else
            aset desired resourceName
              (some (stampFields timestamp storedData
                addExternalNameTracking addResourceNameTracking fields))
      | none => desired
  | _ => desired

/-- The save step of the capture pass (fn.go:1269-1399): skipped entirely in
require-restore mode and when the batch is empty; otherwise merge onto the
in-memory record set, call `Save` once (the mock save always succeeds) and
stamp the desired members of the batch. -/
def captureSave (clusterID compositionKey timestamp : String) (requireRestore : Bool)
    (newData : RecordSet) (names : List String) (st : EngineState) : EngineState :=
  if requireRestore then st
  else if newData.isEmpty then st
  else
    let allResourceData := mergeRecords ((st.cache).getD []) newData
    let st :=
      { st with
          store := mockSave st.store clusterID compositionKey allResourceData
          events := st.events ++ [StoreEvent.save clusterID compositionKey allResourceData] }
    { st with desired := names.foldl (stampEntry timestamp newData st.spCache) st.desired }

/-- `mergeObservedAnnotations` (fn.go:414-488) as the update of one desired
resource: ensure `metadata.annotations` exists, then copy every observed
annotation of the same member over the desired ones (observed values win on
key collisions). -/
def mergeObservedAnns (observed : Resources) (resourceName : String) (res : Res) : Res :=
  match res with
  | some fields =>
      let fields :=
        if (alookup fields "metadata").isNone then aset fields "metadata" (.vstruct []) else fields
      match optStructValue (alookup fields "metadata") with
      | some metadataFields =>
          let metadataFields :=
            if (alookup metadataFields "annotations").isNone then
              aset metadataFields "annotations" (.vstruct [])
            else metadataFields
          match optStructValue (alookup metadataFields "annotations") with
          | some annFields =>
              let observedAnnFields : Fields :=
                match alookup observed resourceName with
                | some (some ofs) =>
                    match optStructValue (alookup ofs "metadata") with
                    | some omfs =>
                        match optStructValue (alookup omfs "annotations") with
                        | some oanns => oanns
                        | none => []
                    | none => []
                | _ => []
              let annFields :=
                observedAnnFields.foldl (fun acc p => aset acc p.1 p.2) annFields
              some (aset fields "metadata"
                (.vstruct (aset metadataFields "annotations" (.vstruct annFields))))
          | none => some fields
      | none => some fields
  | none => none

/-- The final merge pass (fn.go:1401-1405): apply `mergeObservedAnns` to
every desired member. -/
def mergeAllPhase (observed : Resources) (desired : Resources) : Resources :=
  desired.map (fun p => (p.1, mergeObservedAnns observed p.1 p.2))

/-- The XR information extracted from the observed composite (fn.go:706-740):
`(apiVersion, kind, name, namespace, claimNamespace, claimName)`, each `""`
when absent. -/
def extractXRInfo (observedComposite : Option Fields) :
    String × String × String × String × String × String :=
  match observedComposite with
  | some fields =>
      let xrAPIVersion := optStringValue (alookup fields "apiVersion")
      let xrKind := optStringValue (alookup fields "kind")
      match optStructValue (alookup fields "metadata") with
      | some metadataFields =>
          let xrName := optStringValue (alookup metadataFields "name")
          let xrNamespace := optStringValue (alookup metadataFields "namespace")
          match optStructValue (alookup metadataFields "labels") with
          | some labelFields =>
              (xrAPIVersion, xrKind, xrName, xrNamespace,
               optStringValue (alookup labelFields "crossplane.io/claim-namespace"),
               optStringValue (alookup labelFields "crossplane.io/claim-name"))
          | none => (xrAPIVersion, xrKind, xrName, xrNamespace, "", "")
      | none => (xrAPIVersion, xrKind, "", "", "", "")
  | none => ("", "", "", "", "", "")

/-- The override-annotation read of fn.go:769-776 and 787-794: desired
composite first, observed composite as fallback. -/
def overrideAnnValue (req : RunFunctionRequest) (ann : String) : String :=
  let fromDesired :=
    match req.desiredComposite with
    | some c => getAnnValue c ann
    | none => ""
  if fromDesired != "" then fromDesired
  else
    match req.observedComposite with
    | some c => getAnnValue c ann
    | none => ""

/-- The cluster identifier used for all store calls of one invocation. -/
def clusterIDOf (req : RunFunctionRequest) : String :=
  (getConfigFromAnns req).clusterID

/-- The composition key (fn.go:742-811):
`{namespace}/{claimName}/{apiVersion}/{kind}/{name}`, with the claim
namespace defaulting to the XR namespace and then `"none"`, the claim name
defaulting to `"none"`, and the kind and namespace segments replaced by the
override annotations when present. -/
def compositionKeyOf (req : RunFunctionRequest) : String :=
  let info := extractXRInfo req.observedComposite
  let xrAPIVersion := info.1
  let xrKind := info.2.1
  let xrName := info.2.2.1
  let xrNamespace := info.2.2.2.1
  let claimNamespace0 := info.2.2.2.2.1
  let claimName0 := info.2.2.2.2.2
  let claimNamespace :=
    if claimNamespace0 == "" then (if xrNamespace != "" then xrNamespace else "none")
    else claimNamespace0
  let claimName := if claimName0 == "" then "none" else claimName0
  let overrideKind := overrideAnnValue req OverrideKindAnn
  let kindForKey := if overrideKind != "" then overrideKind else xrKind
  let overrideNamespace := overrideAnnValue req OverrideNamespaceAnn
  let namespaceForKey := if overrideNamespace != "" then overrideNamespace else claimNamespace
  namespaceForKey ++ "/" ++ claimName ++ "/" ++ xrAPIVersion ++ "/" ++ kindForKey ++ "/" ++ xrName

/-- `RunFunction` (fn.go:630) on the mock-store path, as a pure function of
the request, the invocation timestamp (`time.Now` formatted, fn.go:814) and
the backing store.  Notes on fidelity:

* the function input parse (`request.GetInput`) is assumed to succeed; the
  parsed input carries no information used by the engine;
* the two wire-level backends (`awsdynamodb`, `k8sconfigmap`) are outside
  the model and yield `Outcome.externalBackend`;
* the response built by `response.To(req, ...)` aliases the request's
  desired state, so `RunResult.desired` is the request's desired resource
  map as mutated up to the moment of return — on fatal paths too. -/
def runFunction (req : RunFunctionRequest) (timestamp : String) (store : MockStore) : RunResult :=
  if !shouldEnableExternalStore req then
    { outcome := .success, desired := req.desiredResources, observed := req.observedResources,
      store := store, events := [] }
  else
    let config := getConfigFromAnns req
    if config.storeType == "awsdynamodb" || config.storeType == "k8sconfigmap" then
      { outcome := .externalBackend, desired := req.desiredResources,
        observed := req.observedResources, store := store, events := [] }
    else if config.storeType != "mock" then
      { outcome := .fatal .unsupportedStoreType, desired := req.desiredResources,
        observed := req.observedResources, store := store, events := [] }
    else
      let clusterID := clusterIDOf req
      let backupScope := config.backupScope
      let compositionKey := compositionKeyOf req
      if shouldPurgeExternalStore req then
        { outcome := .success, desired := req.desiredResources,
          observed := req.observedResources,
          store := mockPurge store clusterID compositionKey,
          events := [.purge clusterID compositionKey] }
      else
        let loadedResources := mockLoad store clusterID compositionKey
        let events0 : List StoreEvent := [.load clusterID compositionKey]
        let requireRestore := shouldRequireRestore req
        if requireRestore && loadedResources.isEmpty then
          { outcome := .fatal .requireRestoreNoData, desired := req.desiredResources,
            observed := req.observedResources, store := store, events := events0 }
        else
          let st0 : EngineState :=
            { desired := req.desiredResources, observed := req.observedResources,
              spCache := [], cache := some loadedResources, store := store, events := events0 }
          let desiredNames := req.desiredResources.map Prod.fst
          let observedNames := req.observedResources.map Prod.fst
          let st1 := desiredNames.foldl (retireEntry clusterID compositionKey timestamp) st0
          let st2 := emptyPurgeCheck clusterID compositionKey st1
          match restorePhase requireRestore backupScope timestamp st2 desiredNames with
          | .error p =>
              { outcome := .fatal p.2, desired := p.1.desired, observed := p.1.observed,
                store := p.1.store, events := p.1.events }
          | .ok st3 =>
              let captured := capturePhase backupScope st3 observedNames
              let st4 :=
                captureSave clusterID compositionKey timestamp requireRestore
                  captured.1 desiredNames captured.2
              { outcome := .success,
                desired := mergeAllPhase st4.observed st4.desired,
                observed := st4.observed, store := st4.store, events := st4.events }

end ENBR

namespace ENBR

/-! ### Specification-side predicates

These restate, in the specification's own words, the retire-eligibility
condition of §4.3 Phase 1, for comparison against the code path. -/

/-- The policy fields the specification says Phase 1 consults: the desired
copy when it carries a spec, otherwise the observed copy (when the observed
field map is non-empty). -/
def specPolicyFieldsWithFallback (desiredFields observedFields : Fields) : Fields :=
  if (optStructValue (alookup desiredFields "spec")).isSome then desiredFields
  else if observedFields.length > 0 then observedFields
  else desiredFields

/-- The member's policy fields show an explicit delete-on-removal policy. -/
def specShowsExplicitDeletePolicy (fields : Fields) : Bool :=
  match optStructValue (alookup fields "spec") with
  | some specFields => optStringValue (alookup specFields "deletionPolicy") == DeletionPolicyDelete
  | none => false

/-- The member's policy fields carry a management-policy set that does not
exclude deletion, i.e. a set naming `"*"` or `"Delete"`. -/
def specMgmtPoliciesPermitDeletion (fields : Fields) : Bool :=
  match optStructValue (alookup fields "spec") with
  | some specFields =>
      match optListValue (alookup specFields "managementPolicies") with
      | some vs =>
          vs.any (fun item =>
            item.getStringValue == "*" || item.getStringValue == DeletionPolicyDelete)
      | none => false
  | none => false

/-- Phase 1 retire eligibility as the specification states it for a desired
member with fields `fields`: the previously-captured tracking annotation is
present (desired copy, falling back to observed) and the policy fields
(desired preferred, observed fallback when desired lacks a spec) show an
explicit delete policy and a deletion-permitting management-policy set. -/
def specRetireEligible (desired observed : Resources) (resourceName : String)
    (fields : Fields) : Bool :=
  let observedFields : Fields :=
    match alookup observed resourceName with
    | some (some fs) => fs
    | _ => []
  let chosen := specPolicyFieldsWithFallback fields observedFields
  (getAnnValueFromResource desired observed resourceName StoredExternalNameAnn != "") &&
    (specShowsExplicitDeletePolicy chosen && specMgmtPoliciesPermitDeletion chosen)

/-! ### Concrete fixtures used by the witnesses and counterexamples -/

/-- A composite resource with the enable, mock-store and require-restore
annotations set. -/
def fixXRRequireRestore : Fields :=
  [("apiVersion", Value.vstr "v1"),
   ("kind", Value.vstr "XR"),
   ("metadata", Value.vstruct
     [("name", Value.vstr "xr1"),
      ("annotations", Value.vstruct
        [(EnableExternalStoreAnn, Value.vstr "true"),
         (StoreTypeAnn, Value.vstr "mock"),
         (RequireRestoreAnn, Value.vstr "true")])])]

/-- A composite resource with only the enable and mock-store annotations. -/
def fixXRPlain : Fields :=
  [("apiVersion", Value.vstr "v1"),
   ("kind", Value.vstr "XR"),
   ("metadata", Value.vstruct
     [("name", Value.vstr "xr1"),
      ("annotations", Value.vstruct
        [(EnableExternalStoreAnn, Value.vstr "true"),
         (StoreTypeAnn, Value.vstr "mock")])])]

/-- A delete-eligible member carrying the stored-external-name tracking
annotation. -/
def fixDeleteEligible : Fields :=
  [("spec", Value.vstruct
     [("deletionPolicy", Value.vstr "Delete"),
      ("managementPolicies", Value.vlist [Value.vstr "*"])]),
   ("metadata", Value.vstruct
     [("annotations", Value.vstruct [(StoredExternalNameAnn, Value.vstr "x")])])]

/-- Request of the C6 counterexample: require-restore enabled, one
delete-eligible desired member `"a"` with a tracking annotation, while the
store only holds data for member `"b"`. -/
def reqPartialMutation : RunFunctionRequest :=
  { observedComposite := some fixXRRequireRestore
    desiredComposite := none
    observedResources := []
    desiredResources := [("a", some fixDeleteEligible)] }

/-- Store of the C6 counterexample: a record for member `"b"` only. -/
def storePartialMutation : MockStore :=
  [("default", [("none/none/v1/XR/xr1", [("b", { externalName := "x" })])])]

/-- Engine state with one tracked, delete-eligible desired member. -/
def fixRetireState : EngineState :=
  { desired := [("a", some fixDeleteEligible)], observed := [], spCache := [],
    cache := some [("a", { externalName := "x" })], store := [], events := [] }

/-- Observed annotations of the C5 scenario: a key `"a"` colliding with the
desired copy and a non-tracking key `"foo"`. -/
def fixOannsC5 : Fields := [("a", Value.vstr "o"), ("foo", Value.vstr "bar")]

/-- Desired annotations of the C5 scenario. -/
def fixAnnsC5 : Fields := [("a", Value.vstr "d")]

/-- Desired metadata fields of the C5 scenario. -/
def fixMfsC5 : Fields := [("annotations", Value.vstruct fixAnnsC5)]

/-- Desired member fields of the C5 scenario. -/
def fixDesC5 : Fields := [("metadata", Value.vstruct fixMfsC5)]

/-- Observed resources of the C5 scenario. -/
def fixObsC5 : Resources :=
  [("r", some [("metadata", Value.vstruct [("annotations", Value.vstruct fixOannsC5)])])]

/-- Engine state of the C9 scenario: the in-memory record set holds both
fields for key `"k"`. -/
def fixCaptureState : EngineState :=
  { desired := [], observed := [], spCache := [],
    cache := some [("k", { externalName := "old-e", resourceName := "old-r" })],
    store := [], events := [] }

/-- New-records batch of the C9 scenario: a fresh external name and no
resource name for key `"k"`. -/
def fixNewData : RecordSet := [("k", { externalName := "new-e" })]

/-- Desired member of the C7 scenario: it already carries both identity
values. -/
def fixRestoreDesired : Fields :=
  [("metadata", Value.vstruct
     [("name", Value.vstr "n1"),
      ("annotations", Value.vstruct
        [("crossplane.io/external-name", Value.vstr "keep")])])]

/-- Engine state of the C7 scenario: the store holds different identity
values for the member's resource key. -/
def fixRestoreState : EngineState :=
  { desired := [("m", some fixRestoreDesired)], observed := [], spCache := [],
    cache := some [("m", { externalName := "z", resourceName := "zz" })],
    store := [], events := [] }

/-- The state a successful restore step returns (the carried state on the
fatal paths). -/
def restoreStepOkState (requireRestore : Bool) (backupScope timestamp : String)
    (st : EngineState) (resourceName : String) : EngineState :=
  match restoreStep requireRestore backupScope timestamp st resourceName with
  | .ok s => s
  | .error e => e.1

/-- An observed member whose capture candidates already match its tracking
annotations (or are absent): the capture pass adds no record for it. -/
def captureMatched : String × Res → Bool
  | (_, some fields) =>
      (getAnnValue fields "crossplane.io/external-name" == "" ||
       getAnnValue fields StoredExternalNameAnn ==
         getAnnValue fields "crossplane.io/external-name") &&
      (getMetadataName fields == "" ||
       getAnnValue fields StoredResourceNameAnn == getMetadataName fields)
  | (_, none) => true

/-- Observed member of the C3 steady state: identity values present and
both tracking annotations matching them. -/
def fixObsMatch : Fields :=
  [("spec", Value.vstruct [("deletionPolicy", Value.vstr "Orphan")]),
   ("metadata", Value.vstruct
     [("name", Value.vstr "n1"),
      ("annotations", Value.vstruct
        [("crossplane.io/external-name", Value.vstr "x"),
         (StoredExternalNameAnn, Value.vstr "x"),
         (StoredResourceNameAnn, Value.vstr "n1")])])]

/-- Desired member of the C3 steady state: preserve-on-delete policy, so the
retire pass does not fire although the observed copy carries the tracking
annotation. -/
def fixDesIdem : Fields :=
  [("spec", Value.vstruct [("deletionPolicy", Value.vstr "Orphan")])]

/-- Second-run request of the C3 scenario. -/
def reqIdem : RunFunctionRequest :=
  { observedComposite := some fixXRPlain
    desiredComposite := none
    observedResources := [("m", some fixObsMatch)]
    desiredResources := [("m", some fixDesIdem)] }

/-- Store of the C3 scenario: the record captured by the first run. -/
def storeIdem : MockStore :=
  [("default", [("none/none/v1/XR/xr1", [("m", { externalName := "x" })])])]

/-- Observed member with a changed external name (candidate differs from the
tracking annotation). -/
def fixObsDiff : Fields :=
  [("spec", Value.vstruct [("deletionPolicy", Value.vstr "Orphan")]),
   ("metadata", Value.vstruct
     [("annotations", Value.vstruct
        [("crossplane.io/external-name", Value.vstr "y"),
         (StoredExternalNameAnn, Value.vstr "x")])])]

/-- Engine state whose observed member `"m"` carries the changed external
name. -/
def fixCaptureDiffState : EngineState :=
  { desired := [], observed := [("m", some fixObsDiff)], spCache := [],
    cache := some [("m", { externalName := "x" })], store := [], events := [] }

/-- What membership in the new-records batch guarantees, in the
specification's words: the member exists in the observed map and every
field the record carries differs (byte-for-byte) from the member's
last-tracked annotation value. -/
def capturedDiffers (observed : Resources) (resourceName : String) (data : ResourceData) : Prop :=
  ∃ fields, alookup observed resourceName = some (some fields) ∧
    (data.externalName ≠ "" ∨ data.resourceName ≠ "") ∧
    (data.externalName ≠ "" →
      data.externalName = getAnnValue fields "crossplane.io/external-name" ∧
      getAnnValue fields StoredExternalNameAnn ≠ data.externalName) ∧
    (data.resourceName ≠ "" →
      data.resourceName = getMetadataName fields ∧
      getAnnValue fields StoredResourceNameAnn ≠ data.resourceName)

end ENBR

namespace ENBR

/-! ### Association-list lemmas -/

theorem alookup_nil {β : Type} (k : String) : alookup ([] : List (String × β)) k = none := rfl

theorem alookup_cons {β : Type} (x : String × β) (l : List (String × β)) (k : String) :
    alookup (x :: l) k = if x.1 = k then some x.2 else alookup l k := by
  by_cases hx : x.1 = k
  · simp [alookup, List.find?, hx]
  · have : (x.1 == k) = false := by simpa using hx
    simp [alookup, List.find?, this, hx]

theorem alookup_aset {β : Type} (l : List (String × β)) (k k' : String) (v : β) :
    alookup (aset l k v) k' = if k = k' then some v else alookup l k' := by
  induction l with
  | nil =>
      by_cases h : k = k' <;> simp [aset, alookup_cons, alookup_nil, h]
  | cons x xs ih =>
      by_cases hx : x.1 = k
      · rw [aset, if_pos hx, alookup_cons]
        by_cases h : k = k'
        · simp [h]
        · rw [if_neg h, if_neg h, alookup_cons, if_neg (by rw [hx]; exact h)]
      · rw [aset, if_neg hx, alookup_cons]
        by_cases hx' : x.1 = k'
        · have h : k ≠ k' := by rw [← hx']; exact fun he => hx he.symm
          rw [if_pos hx', if_neg h, alookup_cons, if_pos hx']
        · rw [if_neg hx', ih]
          by_cases h : k = k'
          · simp [h]
          · rw [if_neg h, if_neg h, alookup_cons, if_neg hx']

theorem alookup_aset_self {β : Type} (l : List (String × β)) (k : String) (v : β) :
    alookup (aset l k v) k = some v := by
  simp [alookup_aset]

theorem alookup_aset_ne {β : Type} (l : List (String × β)) (k k' : String) (v : β)
    (h : k ≠ k') : alookup (aset l k v) k' = alookup l k' := by
  simp [alookup_aset, h]

theorem alookup_adel {β : Type} (l : List (String × β)) (k k' : String) :
    alookup (adel l k) k' = if k = k' then none else alookup l k' := by
  induction l with
  | nil => by_cases h : k = k' <;> simp [adel, alookup_nil, h]
  | cons x xs ih =>
      rw [adel, List.filter_cons]
      by_cases hx : x.1 = k
      · have hb : (x.1 != k) = false := by simp [hx]
        rw [hb]
        simp only [Bool.false_eq_true, if_false]
        rw [show List.filter (fun p => p.1 != k) xs = adel xs k from rfl, ih]
        by_cases h : k = k'
        · simp [h]
        · rw [if_neg h, if_neg h, alookup_cons, if_neg (by rw [hx]; exact h)]
      · have hb : (x.1 != k) = true := by simp [hx]
        rw [hb]
        simp only [if_true]
        rw [alookup_cons]
        by_cases hx' : x.1 = k'
        · have h : k ≠ k' := by rw [← hx']; exact fun he => hx he.symm
          rw [if_pos hx', if_neg h, alookup_cons, if_pos hx']
        · rw [if_neg hx',
            show List.filter (fun p => p.1 != k) xs = adel xs k from rfl, ih]
          by_cases h : k = k'
          · simp [h]
          · rw [if_neg h, if_neg h, alookup_cons, if_neg hx']

theorem alookup_eq_none_of_not_mem_keys {β : Type} (l : List (String × β)) (k : String)
    (h : k ∉ l.map Prod.fst) : alookup l k = none := by
  induction l with
  | nil => rfl
  | cons x xs ih =>
      simp only [List.map_cons, List.mem_cons] at h
      push_neg at h
      rw [alookup_cons, if_neg (fun he => h.1 he.symm)]
      exact ih h.2

theorem alookup_foldl_aset_of_none {β : Type} (src : List (String × β))
    (acc : List (String × β)) (k : String) (h : alookup src k = none) :
    alookup (src.foldl (fun a p => aset a p.1 p.2) acc) k = alookup acc k := by
  induction src generalizing acc with
  | nil => rfl
  | cons x xs ih =>
      rw [alookup_cons] at h
      by_cases hx : x.1 = k
      · simp [hx] at h
      · rw [if_neg hx] at h
        simpa [alookup_aset_ne _ _ _ _ hx] using ih (aset acc x.1 x.2) h

theorem alookup_foldl_aset_of_some {β : Type} (src : List (String × β))
    (acc : List (String × β)) (k : String) (v : β)
    (hnd : (src.map Prod.fst).Nodup) (h : alookup src k = some v) :
    alookup (src.foldl (fun a p => aset a p.1 p.2) acc) k = some v := by
  induction src generalizing acc with
  | nil => simp [alookup_nil] at h
  | cons x xs ih =>
      simp only [List.map_cons, List.nodup_cons] at hnd
      rw [alookup_cons] at h
      by_cases hx : x.1 = k
      · rw [if_pos hx] at h
        have hxs : alookup xs k = none := by
          apply alookup_eq_none_of_not_mem_keys
          rw [← hx]; exact hnd.1
        rw [List.foldl_cons, alookup_foldl_aset_of_none xs _ k hxs]
        rw [hx] at *
        simp [alookup_aset_self, ← h]
      · rw [if_neg hx] at h
        exact ih (aset acc x.1 x.2) hnd.2 h

theorem alookup_aset_cases {β : Type} (l : List (String × β)) (k k' : String) (v w : β)
    (h : alookup (aset l k v) k' = some w) :
    (k = k' ∧ w = v) ∨ (k ≠ k' ∧ alookup l k' = some w) := by
  rw [alookup_aset] at h
  by_cases he : k = k'
  · rw [if_pos he] at h
    exact Or.inl ⟨he, (Option.some_injective _ h).symm⟩
  · rw [if_neg he] at h
    exact Or.inr ⟨he, h⟩

/-! ### Claim C10: unrecognized backup scopes are processed like scope `all` -/

/-- C10.  For every backup-scope string other than `"orphaned"` and `"all"`,
`shouldProcessResource` returns `true` for every resource, i.e. an
unrecognized scope behaves exactly like scope `"all"` for eligibility. -/
theorem c10_unknown_scope_processes_all (fields : Fields) (resourceName scope : String)
    (h1 : scope ≠ BackupScopeOrphaned) (h2 : scope ≠ BackupScopeAll) :
    shouldProcessResource fields resourceName scope = true ∧
    shouldProcessResource fields resourceName scope =
      shouldProcessResource fields resourceName BackupScopeAll := by
  have hb1 : (scope == BackupScopeOrphaned) = false := by simpa using h1
  have hb2 : (scope == BackupScopeAll) = false := by simpa using h2
  constructor
  · simp [shouldProcessResource, hb1, hb2]
  · simp [shouldProcessResource, hb1, hb2, BackupScopeAll]

/-- Witness for C10 at the misspelled scope `"orphanned"`. -/
theorem c10_unknown_scope_processes_all_witness :
    "orphanned" ≠ BackupScopeOrphaned ∧ "orphanned" ≠ BackupScopeAll ∧
    (shouldProcessResource [] "r" "orphanned" = true ∧
     shouldProcessResource [] "r" "orphanned" = shouldProcessResource [] "r" BackupScopeAll) :=
  ⟨by decide, by decide,
   c10_unknown_scope_processes_all [] "r" "orphanned" (by decide) (by decide)⟩

/-! ### Claim C2: scope `orphaned` with absent policy fields

The claim says a member whose spec carries neither policy field is
ineligible; in the code the management-policy check is vacuously true when
the field is absent, so such a member is eligible.  Only a member without a
spec struct is ineligible. -/

/-- Counterexample to C2: a member whose spec is present but carries neither
a deletion policy nor a management-policy field is processed (eligible)
under scope `orphaned`, where the claim says `shouldProcessResource` must
return `false`. -/
theorem c2_counterexample_empty_spec_is_processed :
    shouldProcessResource [("spec", Value.vstruct [])] "bucket" BackupScopeOrphaned = true := by
  decide

/-- C2 as amended.  Under scope `orphaned`: a member with no spec struct is
ineligible; a member whose spec struct lacks both the deletion-policy and
the management-policies field is eligible, because the management-policy
check defaults to permissive when the field is absent. -/
theorem c2_amended_orphaned_eligibility (fields : Fields) (resourceName : String) :
    (optStructValue (alookup fields "spec") = none →
      shouldProcessResource fields resourceName BackupScopeOrphaned = false) ∧
    (∀ specFields, optStructValue (alookup fields "spec") = some specFields →
      alookup specFields "deletionPolicy" = none →
      alookup specFields "managementPolicies" = none →
      shouldProcessResource fields resourceName BackupScopeOrphaned = true) := by
  constructor
  · intro h
    simp [shouldProcessResource, h, BackupScopeOrphaned, BackupScopeAll]
  · intro specFields hs h1 h2
    simp [shouldProcessResource, hs, h1, h2, BackupScopeOrphaned, BackupScopeAll,
      optStringValue, optListValue, DeletionPolicyOrphan]

/-- Witness for the amended C2 at a member without a spec and at a member
with an empty spec struct. -/
theorem c2_amended_orphaned_eligibility_witness :
    shouldProcessResource [] "r" BackupScopeOrphaned = false ∧
    shouldProcessResource [("spec", Value.vstruct [])] "r" BackupScopeOrphaned = true :=
  ⟨(c2_amended_orphaned_eligibility [] "r").1 rfl,
   (c2_amended_orphaned_eligibility [("spec", Value.vstruct [])] "r").2 [] rfl rfl rfl⟩

/-! ### Claim C4: the retire pass calls deleteResource exactly when the
specification's condition holds -/

/-- The code's fallback deletion check agrees with the specification's
chosen-policy-fields formulation. -/
theorem shouldDelete_eq_spec (fields observedFields : Fields) :
    shouldDeleteFromExternalStoreWithFallback fields observedFields =
      (specShowsExplicitDeletePolicy (specPolicyFieldsWithFallback fields observedFields) &&
       specMgmtPoliciesPermitDeletion (specPolicyFieldsWithFallback fields observedFields)) := by
  unfold shouldDeleteFromExternalStoreWithFallback specPolicyFieldsWithFallback
    specShowsExplicitDeletePolicy specMgmtPoliciesPermitDeletion checkDeletionCriteria
  cases hspec : optStructValue (alookup fields "spec") with
  | some specFields => simp [hspec]
  | none =>
      simp only [hspec, Option.isSome_none, Bool.false_eq_true, if_false]
      by_cases hlen : observedFields.length > 0
      · simp only [if_pos hlen, Bool.not_false, decide_eq_true_eq, hlen, Bool.true_and]
        cases hospec : optStructValue (alookup observedFields "spec") with
        | some ospecFields => simp [hospec]
        | none => simp [hospec]
      · simp [if_neg hlen, hlen, hspec]

/-- The code's retire decision agrees with the specification's
retire-eligibility predicate for a proper desired member. -/
theorem retireDecision_eq_spec (desired observed : Resources) (resourceName : String)
    (fields : Fields) (hmem : alookup desired resourceName = some (some fields)) :
    retireDecision desired observed resourceName =
      specRetireEligible desired observed resourceName fields := by
  unfold retireDecision specRetireEligible
  rw [hmem]
  dsimp only
  rw [shouldDelete_eq_spec]

/-- C4.  During the retire phase, `deleteResource` is called for a desired
member (the delete event is appended) if and only if the member carries the
stored-external-name tracking annotation (desired copy, observed fallback)
and its policy fields (desired preferred, observed fallback when desired
lacks a spec) show an explicit `"Delete"` deletion policy together with a
management-policy set that permits deletion; when the condition fails the
member and the engine state are left entirely untouched. -/
theorem c4_retire_delete_iff_spec (clusterID compositionKey timestamp : String)
    (st : EngineState) (resourceName : String) (fields : Fields)
    (hmem : alookup st.desired resourceName = some (some fields)) :
    ((retireEntry clusterID compositionKey timestamp st resourceName).events =
        st.events ++ [StoreEvent.deleteRes clusterID compositionKey resourceName] ↔
      specRetireEligible st.desired st.observed resourceName fields = true) ∧
    (specRetireEligible st.desired st.observed resourceName fields = false →
      retireEntry clusterID compositionKey timestamp st resourceName = st) := by
  have hdec := retireDecision_eq_spec st.desired st.observed resourceName fields hmem
  constructor
  · cases he : specRetireEligible st.desired st.observed resourceName fields with
    | true =>
        simp only [he, iff_true]
        rw [retireEntry, hdec, he, if_pos rfl, hmem]
    | false =>
        simp only [he, Bool.false_eq_true, iff_false]
        rw [retireEntry, hdec, he]
        simp
  · intro he
    rw [retireEntry, hdec, he]
    simp

/-- Witness for C4 at a delete-eligible tracked member (forward direction)
and at an untracked member (no-op direction). -/
theorem c4_retire_delete_iff_spec_witness :
    ((retireEntry "default" "ck" "T" fixRetireState "a").events =
        fixRetireState.events ++ [StoreEvent.deleteRes "default" "ck" "a"] ↔
      specRetireEligible fixRetireState.desired fixRetireState.observed "a"
        fixDeleteEligible = true) :=
  (c4_retire_delete_iff_spec "default" "ck" "T" fixRetireState "a" fixDeleteEligible rfl).1

/-! ### Claim C5: the final merge phase

The claim says only observed tracking annotations not already present in
desired are copied; the code copies every observed annotation and lets the
observed value win on key collisions. -/

/-- Counterexample to C5: the merge overwrites the desired value of key
`"a"` with the observed value, and copies the non-tracking key `"foo"`,
where the claim says the desired value is kept and non-tracking keys are
not copied. -/
theorem c5_counterexample_merge_clobbers :
    getAnnValue fixDesC5 "a" = "d" ∧ getAnnValue fixDesC5 "foo" = "" ∧
    getAnnValueFromResource [("r", mergeObservedAnns fixObsC5 "r" (some fixDesC5))] []
      "r" "a" = "o" ∧
    getAnnValueFromResource [("r", mergeObservedAnns fixObsC5 "r" (some fixDesC5))] []
      "r" "foo" = "bar" :=
  ⟨rfl, rfl, rfl, rfl⟩

/-- C5 as amended.  The merge phase copies every observed annotation of the
member into the desired copy, the observed value overwriting any same-key
desired value (tracking or not); keys absent from the observed annotations
keep their desired value. -/
theorem c5_amended_merge_copies_all_observed (observed : Resources) (resourceName : String)
    (fields metadataFields annFields ofs omfs oanns : Fields)
    (hm : alookup fields "metadata" = some (.vstruct metadataFields))
    (ha : alookup metadataFields "annotations" = some (.vstruct annFields))
    (ho : alookup observed resourceName = some (some ofs))
    (hom : alookup ofs "metadata" = some (.vstruct omfs))
    (hoa : alookup omfs "annotations" = some (.vstruct oanns))
    (hnd : (oanns.map Prod.fst).Nodup) :
    mergeObservedAnns observed resourceName (some fields) =
      some (aset fields "metadata"
        (.vstruct (aset metadataFields "annotations"
          (.vstruct (oanns.foldl (fun acc p => aset acc p.1 p.2) annFields))))) ∧
    (∀ k v, alookup oanns k = some v →
      alookup (oanns.foldl (fun acc p => aset acc p.1 p.2) annFields) k = some v) ∧
    (∀ k, alookup oanns k = none →
      alookup (oanns.foldl (fun acc p => aset acc p.1 p.2) annFields) k = alookup annFields k) := by
  refine ⟨?_, ?_, ?_⟩
  · simp [mergeObservedAnns, hm, ha, ho, hom, hoa, optStructValue, Value.getStructValue]
  · intro k v hv
    exact alookup_foldl_aset_of_some oanns annFields k v hnd hv
  · intro k hk
    exact alookup_foldl_aset_of_none oanns annFields k hk

/-- Witness for the amended C5 at the concrete scenario: the colliding key
takes the observed value, the key absent from observed keeps the desired
side. -/
theorem c5_amended_merge_copies_all_observed_witness :
    mergeObservedAnns fixObsC5 "r" (some fixDesC5) =
      some (aset fixDesC5 "metadata"
        (.vstruct (aset fixMfsC5 "annotations"
          (.vstruct (fixOannsC5.foldl (fun acc p => aset acc p.1 p.2) fixAnnsC5))))) ∧
    alookup (fixOannsC5.foldl (fun acc p => aset acc p.1 p.2) fixAnnsC5) "a" =
      some (Value.vstr "o") ∧
    alookup (fixOannsC5.foldl (fun acc p => aset acc p.1 p.2) fixAnnsC5) "zz" =
      alookup fixAnnsC5 "zz" :=
  have h := c5_amended_merge_copies_all_observed fixObsC5 "r" fixDesC5 fixMfsC5 fixAnnsC5
    _ _ fixOannsC5 rfl rfl rfl rfl rfl (by decide)
  ⟨h.1, h.2.1 "a" (Value.vstr "o") rfl, h.2.2 "zz" rfl⟩

/-! ### Claim C1: require-restore with an empty loaded record set -/

/-- C1.  When require-restore mode is enabled and the store holds no record
set for the resolved composition key, the invocation returns the fatal
require-restore result, the store is untouched and no save call occurs. -/
theorem c1_require_restore_empty_fatal_no_save (req : RunFunctionRequest)
    (timestamp : String) (store : MockStore)
    (hen : shouldEnableExternalStore req = true)
    (hmock : (getConfigFromAnns req).storeType = "mock")
    (hpurge : shouldPurgeExternalStore req = false)
    (hrr : shouldRequireRestore req = true)
    (hload : mockLoad store (clusterIDOf req) (compositionKeyOf req) = []) :
    (runFunction req timestamp store).outcome = .fatal .requireRestoreNoData ∧
    (runFunction req timestamp store).events.all (fun e => !e.isSave) = true ∧
    (runFunction req timestamp store).store = store := by
  have h1 : (("mock" : String) == "awsdynamodb") = false := by decide
  have h2 : (("mock" : String) == "k8sconfigmap") = false := by decide
  have h3 : (("mock" : String) != "mock") = false := by decide
  simp only [runFunction, hen, hmock, hpurge, hrr, hload, h1, h2, h3, Bool.not_true,
    Bool.false_eq_true, if_false, Bool.or_self, List.isEmpty_nil, Bool.and_true, if_true]
  refine ⟨trivial, ?_, trivial⟩
  simp [StoreEvent.isSave]

/-- Witness for C1: a require-restore request against an empty store ends
fatal without a save call. -/
theorem c1_require_restore_empty_fatal_no_save_witness :
    (runFunction reqPartialMutation "T" []).outcome = .fatal .requireRestoreNoData ∧
    (runFunction reqPartialMutation "T" []).events.all (fun e => !e.isSave) = true ∧
    (runFunction reqPartialMutation "T" []).store = [] :=
  c1_require_restore_empty_fatal_no_save reqPartialMutation "T" []
    (by decide) (by decide) (by decide) (by decide) (by decide)

/-! ### Claim C6: fatal results and the returned desired graph

The claim says every post-gate non-purge fatal exposes no mutation.  The
response aliases the in-place-mutated desired graph, so a fatal raised in
the restore pass (require-restore, missing member record) exposes the
retire-pass mutations performed before it.  Only fatals raised before the
retire pass leave the desired graph unchanged. -/

/-- Counterexample to C6: with require-restore enabled and a store holding
only member `"b"`, the delete-eligible tracked member `"a"` is mutated by
the retire pass (tracking stripped, deletion timestamp stamped) before the
restore pass aborts fatally; the returned desired graph carries the
mutation, where the claim says it must equal the input desired graph. -/
theorem c6_counterexample_fatal_exposes_mutation :
    (runFunction reqPartialMutation "T" storePartialMutation).outcome =
      .fatal .requireRestoreNoResourceData ∧
    getAnnValueFromResource (runFunction reqPartialMutation "T" storePartialMutation).desired
      [] "a" ExternalNameDeletedAnn = "T" ∧
    getAnnValueFromResource reqPartialMutation.desiredResources [] "a"
      ExternalNameDeletedAnn = "" :=
  ⟨rfl, rfl, rfl⟩

/-- C6 as amended.  Only fatal conditions raised before the retire phase
leave the returned desired graph unchanged: an unsupported store type, and
the require-restore check against an empty loaded record set.  (A fatal
raised later is surfaced as the single structured result, but the returned
desired graph is the request's graph as mutated up to the failure.) -/
theorem c6_amended_early_fatal_desired_unchanged (req : RunFunctionRequest)
    (timestamp : String) (store : MockStore)
    (hen : shouldEnableExternalStore req = true) :
    (((getConfigFromAnns req).storeType ≠ "awsdynamodb" →
      (getConfigFromAnns req).storeType ≠ "k8sconfigmap" →
      (getConfigFromAnns req).storeType ≠ "mock" →
      (runFunction req timestamp store).outcome = .fatal .unsupportedStoreType ∧
      (runFunction req timestamp store).desired = req.desiredResources)) ∧
    (((getConfigFromAnns req).storeType = "mock" →
      shouldPurgeExternalStore req = false →
      shouldRequireRestore req = true →
      mockLoad store (clusterIDOf req) (compositionKeyOf req) = [] →
      (runFunction req timestamp store).outcome = .fatal .requireRestoreNoData ∧
      (runFunction req timestamp store).desired = req.desiredResources)) := by
  constructor
  · intro hd hk hm
    have h1 : ((getConfigFromAnns req).storeType == "awsdynamodb") = false := by simpa using hd
    have h2 : ((getConfigFromAnns req).storeType == "k8sconfigmap") = false := by simpa using hk
    have h3 : ((getConfigFromAnns req).storeType != "mock") = true := by simpa using hm
    simp only [runFunction, hen, h1, h2, h3, Bool.not_true, Bool.false_eq_true, if_false,
      Bool.or_self, if_true]
    exact ⟨trivial, trivial⟩
  · intro hmock hpurge hrr hload
    have h1 : (("mock" : String) == "awsdynamodb") = false := by decide
    have h2 : (("mock" : String) == "k8sconfigmap") = false := by decide
    have h3 : (("mock" : String) != "mock") = false := by decide
    simp only [runFunction, hen, hmock, hpurge, hrr, hload, h1, h2, h3, Bool.not_true,
      Bool.false_eq_true, if_false, Bool.or_self, List.isEmpty_nil, Bool.and_true, if_true]
    exact ⟨trivial, trivial⟩

/-- Witness for the amended C6: the require-restore-empty fatal leaves the
desired graph untouched. -/
theorem c6_amended_early_fatal_desired_unchanged_witness :
    (runFunction reqPartialMutation "T" []).outcome = .fatal .requireRestoreNoData ∧
    (runFunction reqPartialMutation "T" []).desired = reqPartialMutation.desiredResources :=
  (c6_amended_early_fatal_desired_unchanged reqPartialMutation "T" [] (by decide)).2
    (by decide) (by decide) (by decide) (by decide)

/-! ### Claim C8: retiring the last key purges the composition -/

/-- C8.  When the retire pass empties a previously non-empty in-memory
record set (the last remaining resource key was retired by a successful
delete), the empty-composition cleanup issues the purge call, drops the
local entry, and the composition key is entirely absent from the resulting
store. -/
theorem c8_retire_last_key_purges (clusterID compositionKey timestamp : String)
    (st st1 : EngineState) (names : List String) (rs : RecordSet)
    (hc : st.cache = some rs) (hne : rs ≠ [])
    (h1 : names.foldl (retireEntry clusterID compositionKey timestamp) st = st1)
    (hempty : st1.cache = some []) :
    (emptyPurgeCheck clusterID compositionKey st1).events =
      st1.events ++ [StoreEvent.purge clusterID compositionKey] ∧
    alookup ((alookup (emptyPurgeCheck clusterID compositionKey st1).store clusterID).getD [])
      compositionKey = none ∧
    (emptyPurgeCheck clusterID compositionKey st1).cache = none := by
  have hpc : emptyPurgeCheck clusterID compositionKey st1 =
      { st1 with
          store := mockPurge st1.store clusterID compositionKey
          cache := none
          events := st1.events ++ [StoreEvent.purge clusterID compositionKey] } := by
    rw [emptyPurgeCheck, hempty]
    rfl
  rw [hpc]
  refine ⟨rfl, ?_, rfl⟩
  unfold mockPurge
  cases hcd : alookup st1.store clusterID with
  | some clusterData =>
      simp [hcd, alookup_aset_self, alookup_adel]
  | none =>
      simp [hcd, alookup_nil]

/-- Witness for C8: retiring the single tracked member of
`fixRetireState` empties the record set, purges the composition and leaves
the key absent. -/
theorem c8_retire_last_key_purges_witness :
    (emptyPurgeCheck "default" "ck"
        (["a"].foldl (retireEntry "default" "ck" "T") fixRetireState)).events =
      (["a"].foldl (retireEntry "default" "ck" "T") fixRetireState).events ++
        [StoreEvent.purge "default" "ck"] ∧
    alookup ((alookup (emptyPurgeCheck "default" "ck"
        (["a"].foldl (retireEntry "default" "ck" "T") fixRetireState)).store
        "default").getD []) "ck" = none ∧
    (emptyPurgeCheck "default" "ck"
        (["a"].foldl (retireEntry "default" "ck" "T") fixRetireState)).cache = none :=
  c8_retire_last_key_purges "default" "ck" "T" fixRetireState _ ["a"]
    [("a", { externalName := "x" })] rfl (by decide) rfl rfl

/-! ### Claim C9: the capture phase merges per field and saves once -/

/-- Characterization of the per-field merge: a new record's non-empty
fields overwrite and its empty fields inherit the previously stored
values; keys without a new record are unchanged. -/
theorem mergeRecords_alookup (ex nd : RecordSet) (hnd : (nd.map Prod.fst).Nodup)
    (k : String) :
    alookup (mergeRecords ex nd) k =
      match alookup nd k with
      | some d =>
          some { externalName := if d.externalName != "" then d.externalName
                                 else ((alookup ex k).getD {}).externalName
                 resourceName := if d.resourceName != "" then d.resourceName
                                 else ((alookup ex k).getD {}).resourceName }
      | none => alookup ex k := by
  induction nd generalizing ex with
  | nil => simp [mergeRecords, alookup_nil]
  | cons p ps ih =>
      simp only [List.map_cons, List.nodup_cons] at hnd
      have hstep : mergeRecords ex (p :: ps) =
          mergeRecords
            (aset ex p.1
              { externalName := if p.2.externalName != "" then p.2.externalName
                                else ((alookup ex p.1).getD {}).externalName
                resourceName := if p.2.resourceName != "" then p.2.resourceName
                                else ((alookup ex p.1).getD {}).resourceName }) ps := by
        simp only [mergeRecords, List.foldl_cons]
        congr 1
        by_cases h1 : p.2.externalName != "" <;> by_cases h2 : p.2.resourceName != "" <;>
          simp [h1, h2]
      rw [hstep]
      by_cases hk : p.1 = k
      · have hps : alookup ps k = none := by
          apply alookup_eq_none_of_not_mem_keys
          rw [← hk]; exact hnd.1
        rw [ih _ hnd.2, hps, alookup_cons, if_pos hk, alookup_aset, if_pos hk]
        subst hk
        rfl
      · rw [ih _ hnd.2, alookup_cons, if_neg hk]
        cases halo : alookup ps k with
        | some d => simp [halo, alookup_aset_ne _ _ _ _ hk]
        | none => simp [halo, alookup_aset_ne _ _ _ _ hk]

/-- C9.  Outside require-restore mode, a non-empty new-records batch leads
to exactly one save call, whose payload is the per-field merge of the batch
onto the in-memory record set; for any key holding both an old record and a
new one, a captured external name with no accompanying resource name keeps
the stored resource name, and vice versa. -/
theorem c9_capture_saves_merged_once (clusterID compositionKey timestamp : String)
    (newData : RecordSet) (names : List String) (st : EngineState)
    (hnd : (newData.map Prod.fst).Nodup) (hne : newData ≠ []) :
    (captureSave clusterID compositionKey timestamp false newData names st).events =
      st.events ++
        [StoreEvent.save clusterID compositionKey (mergeRecords ((st.cache).getD []) newData)] ∧
    (captureSave clusterID compositionKey timestamp false newData names st).store =
      mockSave st.store clusterID compositionKey (mergeRecords ((st.cache).getD []) newData) ∧
    (∀ k d ex, alookup newData k = some d → alookup ((st.cache).getD []) k = some ex →
      d.externalName ≠ "" → d.resourceName = "" →
      alookup (mergeRecords ((st.cache).getD []) newData) k =
        some { externalName := d.externalName, resourceName := ex.resourceName }) ∧
    (∀ k d ex, alookup newData k = some d → alookup ((st.cache).getD []) k = some ex →
      d.resourceName ≠ "" → d.externalName = "" →
      alookup (mergeRecords ((st.cache).getD []) newData) k =
        some { externalName := ex.externalName, resourceName := d.resourceName }) := by
  have hemp : newData.isEmpty = false := by
    cases newData with
    | nil => exact absurd rfl hne
    | cons a l => rfl
  have hcs : captureSave clusterID compositionKey timestamp false newData names st =
      { st with
          store := mockSave st.store clusterID compositionKey
            (mergeRecords ((st.cache).getD []) newData)
          events := st.events ++
            [StoreEvent.save clusterID compositionKey (mergeRecords ((st.cache).getD []) newData)]
          desired := names.foldl (stampEntry timestamp newData
            st.spCache) st.desired } := by
    rw [captureSave, if_neg (by simp), hemp]
    rfl
  refine ⟨by rw [hcs], by rw [hcs], ?_, ?_⟩
  · intro k d ex hd hex hde hdr
    rw [mergeRecords_alookup _ _ hnd, hd, hex]
    have h1 : (d.externalName != "") = true := by simpa using hde
    have h2 : (d.resourceName != "") = false := by simpa using hdr
    simp [h1, h2]
  · intro k d ex hd hex hdr hde
    rw [mergeRecords_alookup _ _ hnd, hd, hex]
    have h1 : (d.externalName != "") = false := by simpa using hde
    have h2 : (d.resourceName != "") = true := by simpa using hdr
    simp [h1, h2]

/-- Witness for C9: capturing a new external name for `"k"` saves once with
the merged set, in which the previously stored resource name survives. -/
theorem c9_capture_saves_merged_once_witness :
    (captureSave "default" "ck" "T" false fixNewData [] fixCaptureState).events =
      fixCaptureState.events ++
        [StoreEvent.save "default" "ck"
          (mergeRecords ((fixCaptureState.cache).getD []) fixNewData)] ∧
    alookup (mergeRecords ((fixCaptureState.cache).getD []) fixNewData) "k" =
      some { externalName := "new-e", resourceName := "old-r" } :=
  have h := c9_capture_saves_merged_once "default" "ck" "T" fixNewData [] fixCaptureState
    (by decide) (by decide)
  ⟨h.1, h.2.2.1 "k" { externalName := "new-e" }
    { externalName := "old-e", resourceName := "old-r" } rfl rfl (by decide) rfl⟩

/-! ### Claim C7: restoration never overwrites an existing identity value -/

/-- When the member already carries an external name, `restoreEntryFields`
leaves the external-name annotation exactly as it was. -/
theorem restoreEntryFields_preserves_ext (timestamp : String) (storedData : ResourceData)
    (hrn : Bool) (fields : Fields) :
    getAnnValue (restoreEntryFields timestamp storedData hrn true fields)
      "crossplane.io/external-name" =
      getAnnValue fields "crossplane.io/external-name" := by
  have hd1 : StoredResourceNameAnn ≠ "crossplane.io/external-name" := by decide
  have hd2 : ResourceNameRestoredAnn ≠ "crossplane.io/external-name" := by decide
  have hd3 : ("name" : String) ≠ "annotations" := by decide
  unfold restoreEntryFields
  simp only [Bool.not_true, Bool.false_and, Bool.false_eq_true, if_false]
  cases hmd : alookup fields "metadata" with
  | none =>
      simp only [hmd, Option.isNone_none, if_true, alookup_aset_self, optStructValue,
        Value.getStructValue]
      by_cases hc : (!hrn && (storedData.resourceName != "")) = true
      · simp only [hc, if_true]
        simp [getAnnValue, alookup_aset_self, alookup_aset, alookup_nil, hd1, hd2, hd3,
          optStructValue, Value.getStructValue, optStringValue, hmd]
      · simp only [Bool.not_eq_true] at hc
        simp [hc, getAnnValue, alookup_aset_self, alookup_nil, optStructValue,
          Value.getStructValue, optStringValue, hmd]
  | some mv =>
      simp only [hmd, Option.isNone_some, Bool.false_eq_true, if_false]
      cases mv with
      | vstruct mfs =>
          simp only [optStructValue, Value.getStructValue]
          by_cases hc : (!hrn && (storedData.resourceName != "")) = true
          · simp only [hc, if_true]
            cases hann : alookup mfs "annotations" with
            | none =>
                have hann' : alookup (aset mfs "name" (.vstr storedData.resourceName))
                    "annotations" = none := by
                  rw [alookup_aset_ne _ _ _ _ hd3, hann]
                simp [hann', getAnnValue, alookup_aset_self, alookup_aset, alookup_nil,
                  hd1, hd2, hd3, optStructValue, Value.getStructValue, optStringValue,
                  hmd, hann]
            | some av =>
                have hann' : alookup (aset mfs "name" (.vstr storedData.resourceName))
                    "annotations" = some av := by
                  rw [alookup_aset_ne _ _ _ _ hd3, hann]
                cases av with
                | vstruct anns =>
                    simp [hann', getAnnValue, alookup_aset_self, alookup_aset, hd1, hd2,
                      optStructValue, Value.getStructValue, optStringValue, hmd, hann]
                | vstr s =>
                    simp [hann', getAnnValue, alookup_aset_self, alookup_aset_ne _ _ _ _ hd3,
                      optStructValue, Value.getStructValue, hmd, hann]
                | vlist vs =>
                    simp [hann', getAnnValue, alookup_aset_self, alookup_aset_ne _ _ _ _ hd3,
                      optStructValue, Value.getStructValue, hmd, hann]
                | vnull =>
                    simp [hann', getAnnValue, alookup_aset_self, alookup_aset_ne _ _ _ _ hd3,
                      optStructValue, Value.getStructValue, hmd, hann]
          · simp only [Bool.not_eq_true] at hc
            simp [hc, getAnnValue, alookup_aset_self, optStructValue, Value.getStructValue,
              hmd]
      | vstr s => simp [optStructValue, Value.getStructValue]
      | vlist vs => simp [optStructValue, Value.getStructValue]
      | vnull => simp [optStructValue, Value.getStructValue]

/-- When the member already carries a `metadata.name`, `restoreEntryFields`
leaves that field exactly as it was. -/
theorem restoreEntryFields_preserves_name (timestamp : String) (storedData : ResourceData)
    (hen : Bool) (fields : Fields) :
    getMetadataName (restoreEntryFields timestamp storedData true hen fields) =
      getMetadataName fields := by
  have hd4 : ("annotations" : String) ≠ "name" := by decide
  unfold restoreEntryFields
  simp only [Bool.not_true, Bool.false_and, Bool.false_eq_true, if_false]
  cases hmd : alookup fields "metadata" with
  | none =>
      simp only [hmd, Option.isNone_none, if_true, alookup_aset_self, optStructValue,
        Value.getStructValue]
      by_cases hc : (!hen && (storedData.externalName != "")) = true
      · simp only [hc, if_true]
        simp [getMetadataName, alookup_aset_self, alookup_aset, alookup_nil, hd4,
          optStructValue, Value.getStructValue, optStringValue, hmd]
      · simp only [Bool.not_eq_true] at hc
        simp [hc, getMetadataName, alookup_aset_self, alookup_nil, optStructValue,
          Value.getStructValue, optStringValue, hmd]
  | some mv =>
      simp only [hmd, Option.isNone_some, Bool.false_eq_true, if_false]
      cases mv with
      | vstruct mfs =>
          simp only [optStructValue, Value.getStructValue]
          by_cases hc : (!hen && (storedData.externalName != "")) = true
          · simp only [hc, if_true]
            cases hann : alookup mfs "annotations" with
            | none =>
                simp [hann, getMetadataName, alookup_aset_self, alookup_aset, alookup_nil,
                  hd4, optStructValue, Value.getStructValue, optStringValue, hmd]
            | some av =>
                cases av with
                | vstruct anns =>
                    simp [hann, getMetadataName, alookup_aset_self, alookup_aset, hd4,
                      optStructValue, Value.getStructValue, optStringValue, hmd]
                | vstr s =>
                    simp [hann, getMetadataName, alookup_aset_self, optStructValue,
                      Value.getStructValue, hmd]
                | vlist vs =>
                    simp [hann, getMetadataName, alookup_aset_self, optStructValue,
                      Value.getStructValue, hmd]
                | vnull =>
                    simp [hann, getMetadataName, alookup_aset_self, optStructValue,
                      Value.getStructValue, hmd]
          · simp only [Bool.not_eq_true] at hc
            simp [hc, getMetadataName, alookup_aset_self, optStructValue,
              Value.getStructValue, hmd]
      | vstr s => simp [optStructValue, Value.getStructValue]
      | vlist vs => simp [optStructValue, Value.getStructValue]
      | vnull => simp [optStructValue, Value.getStructValue]

/-- A successful restore step leaves the observed map unchanged and either
leaves the desired map unchanged or rewrites exactly the processed member
with `restoreEntryFields` under the fallback-read existence flags. -/
theorem restoreStep_ok_shape (requireRestore : Bool) (backupScope timestamp : String)
    (st : EngineState) (resourceName : String) (fields : Fields) (st' : EngineState)
    (hmem : alookup st.desired resourceName = some (some fields))
    (hok : restoreStep requireRestore backupScope timestamp st resourceName = .ok st') :
    st'.observed = st.observed ∧
    (st'.desired = st.desired ∨
      ∃ storedData, st'.desired = aset st.desired resourceName
        (some (restoreEntryFields timestamp storedData
          (getMetadataNameFromResource st.desired st.observed resourceName != "")
          (getAnnValueFromResource st.desired st.observed resourceName
            "crossplane.io/external-name" != "")
          fields))) := by
  unfold restoreStep at hok
  rw [hmem] at hok
  cases requireRestore with
  | true =>
      simp only [Bool.not_true, Bool.and_false, Bool.false_eq_true, if_false,
        Bool.not_false, if_true] at hok
      cases hc : st.cache with
      | some comp =>
          rw [hc] at hok
          dsimp only at hok
          cases hsd : alookup comp resourceName with
          | some sd =>
              rw [hsd] at hok
              dsimp only at hok
              cases Except.ok.inj hok
              exact ⟨rfl, Or.inr ⟨sd, rfl⟩⟩
          | none =>
              rw [hsd] at hok
              dsimp only at hok
              exact absurd hok (by simp)
      | none =>
          rw [hc] at hok
          dsimp only at hok
          exact absurd hok (by simp)
  | false =>
      simp only [Bool.not_false, if_true, Bool.and_true] at hok
      cases hsp : shouldProcessResource fields resourceName backupScope with
      | false =>
          rw [hsp] at hok
          simp only [Bool.not_false, if_true] at hok
          cases Except.ok.inj hok
          exact ⟨rfl, Or.inl rfl⟩
      | true =>
          rw [hsp] at hok
          simp only [Bool.not_true, Bool.false_eq_true, if_false] at hok
          cases hc : st.cache with
          | some comp =>
              rw [hc] at hok
              dsimp only at hok
              cases hsd : alookup comp resourceName with
              | some sd =>
                  rw [hsd] at hok
                  dsimp only at hok
                  cases Except.ok.inj hok
                  exact ⟨rfl, Or.inr ⟨sd, rfl⟩⟩
              | none =>
                  rw [hsd] at hok
                  dsimp only at hok
                  cases Except.ok.inj hok
                  exact ⟨rfl, Or.inl rfl⟩
          | none =>
              rw [hc] at hok
              dsimp only at hok
              cases Except.ok.inj hok
              exact ⟨rfl, Or.inl rfl⟩

/-- C7.  A desired member that already carries an identity value — the
external-name annotation or `metadata.name`, each read from the desired
copy with the observed copy as fallback — keeps that value across the
restore step, whatever different values the store may hold for its
resource key. -/
theorem c7_restore_never_overwrites (requireRestore : Bool) (backupScope timestamp : String)
    (st : EngineState) (resourceName : String) (fields : Fields) (st' : EngineState)
    (hmem : alookup st.desired resourceName = some (some fields))
    (hok : restoreStep requireRestore backupScope timestamp st resourceName = .ok st') :
    (getAnnValueFromResource st.desired st.observed resourceName
        "crossplane.io/external-name" ≠ "" →
      getAnnValueFromResource st'.desired st'.observed resourceName
          "crossplane.io/external-name" =
        getAnnValueFromResource st.desired st.observed resourceName
          "crossplane.io/external-name") ∧
    (getMetadataNameFromResource st.desired st.observed resourceName ≠ "" →
      getMetadataNameFromResource st'.desired st'.observed resourceName =
        getMetadataNameFromResource st.desired st.observed resourceName) := by
  obtain ⟨hobs, hdes⟩ :=
    restoreStep_ok_shape requireRestore backupScope timestamp st resourceName fields st' hmem hok
  cases hdes with
  | inl heq => rw [hobs, heq]; exact ⟨fun _ => rfl, fun _ => rfl⟩
  | inr hex =>
      obtain ⟨sd, heq⟩ := hex
      rw [hobs, heq]
      constructor
      · intro h
        have hb : (getAnnValueFromResource st.desired st.observed resourceName
            "crossplane.io/external-name" != "") = true := by simpa using h
        rw [hb]
        simp only [getAnnValueFromResource, alookup_aset_self, hmem,
          restoreEntryFields_preserves_ext]
      · intro h
        have hb : (getMetadataNameFromResource st.desired st.observed resourceName != "") =
            true := by simpa using h
        rw [hb]
        simp only [getMetadataNameFromResource, alookup_aset_self, hmem,
          restoreEntryFields_preserves_name]

/-- Witness for C7: a member carrying external name `"keep"` and name
`"n1"` keeps both across a restore step although the store holds `"z"` and
`"zz"` for its key. -/
theorem c7_restore_never_overwrites_witness :
    getAnnValueFromResource fixRestoreState.desired fixRestoreState.observed "m"
      "crossplane.io/external-name" = "keep" ∧
    getAnnValueFromResource (restoreStepOkState false "all" "T" fixRestoreState "m").desired
      (restoreStepOkState false "all" "T" fixRestoreState "m").observed "m"
      "crossplane.io/external-name" = "keep" ∧
    getMetadataNameFromResource (restoreStepOkState false "all" "T" fixRestoreState "m").desired
      (restoreStepOkState false "all" "T" fixRestoreState "m").observed "m" = "n1" :=
  have happ := c7_restore_never_overwrites false "all" "T" fixRestoreState "m"
    fixRestoreDesired (restoreStepOkState false "all" "T" fixRestoreState "m") rfl rfl
  ⟨rfl, (happ.1 (by decide)).trans rfl, (happ.2 (by decide)).trans rfl⟩

/-! ### Claim C3: idempotence of capture -/

/-- A retire step with a negative decision is a no-op. -/
theorem retireEntry_noop (clusterID compositionKey timestamp : String)
    (st : EngineState) (resourceName : String)
    (h : retireDecision st.desired st.observed resourceName = false) :
    retireEntry clusterID compositionKey timestamp st resourceName = st := by
  rw [retireEntry, h]
  simp

/-- The whole retire pass is a no-op when no member satisfies the retire
decision. -/
theorem retirePhase_noop (clusterID compositionKey timestamp : String)
    (names : List String) (st : EngineState)
    (h : ∀ n ∈ names, retireDecision st.desired st.observed n = false) :
    names.foldl (retireEntry clusterID compositionKey timestamp) st = st := by
  induction names with
  | nil => rfl
  | cons n ns ih =>
      rw [List.foldl_cons,
        retireEntry_noop clusterID compositionKey timestamp st n (h n (by simp))]
      exact ih (fun m hm => h m (by simp [hm]))

/-- The empty-composition cleanup is a no-op on a non-empty record set. -/
theorem emptyPurgeCheck_noop (clusterID compositionKey : String) (st : EngineState)
    (rs : RecordSet) (hc : st.cache = some rs) (hne : rs ≠ []) :
    emptyPurgeCheck clusterID compositionKey st = st := by
  rw [emptyPurgeCheck, hc]
  cases rs with
  | nil => exact absurd rfl hne
  | cons a l => rfl

/-- A successful restore step changes neither the observed map, the store,
the event log nor the in-memory record set. -/
theorem restoreStep_frame (requireRestore : Bool) (backupScope timestamp : String)
    (st : EngineState) (resourceName : String) (st' : EngineState)
    (hok : restoreStep requireRestore backupScope timestamp st resourceName = .ok st') :
    st'.observed = st.observed ∧ st'.store = st.store ∧ st'.events = st.events ∧
    st'.cache = st.cache := by
  unfold restoreStep at hok
  cases hl : alookup st.desired resourceName with
  | none =>
      rw [hl] at hok
      cases Except.ok.inj hok
      exact ⟨rfl, rfl, rfl, rfl⟩
  | some r =>
      cases r with
      | none =>
          rw [hl] at hok
          cases Except.ok.inj hok
          exact ⟨rfl, rfl, rfl, rfl⟩
      | some fields =>
          rw [hl] at hok
          cases requireRestore with
          | true =>
              simp only [Bool.not_true, Bool.and_false, Bool.false_eq_true, if_false,
                Bool.not_false, if_true] at hok
              cases hc : st.cache with
              | some comp =>
                  rw [hc] at hok
                  dsimp only at hok
                  cases hsd : alookup comp resourceName with
                  | some sd =>
                      rw [hsd] at hok
                      dsimp only at hok
                      cases Except.ok.inj hok
                      exact ⟨rfl, rfl, rfl, rfl⟩
                  | none =>
                      rw [hsd] at hok
                      dsimp only at hok
                      exact absurd hok (by simp)
              | none =>
                  rw [hc] at hok
                  dsimp only at hok
                  exact absurd hok (by simp)
          | false =>
              simp only [Bool.not_false, if_true, Bool.and_true] at hok
              cases hsp : shouldProcessResource fields resourceName backupScope with
              | false =>
                  rw [hsp] at hok
                  simp only [Bool.not_false, if_true] at hok
                  cases Except.ok.inj hok
                  exact ⟨rfl, rfl, rfl, rfl⟩
              | true =>
                  rw [hsp] at hok
                  simp only [Bool.not_true, Bool.false_eq_true, if_false] at hok
                  cases hc : st.cache with
                  | some comp =>
                      rw [hc] at hok
                      dsimp only at hok
                      cases hsd : alookup comp resourceName with
                      | some sd =>
                          rw [hsd] at hok
                          dsimp only at hok
                          cases Except.ok.inj hok
                          exact ⟨rfl, rfl, rfl, rfl⟩
                      | none =>
                          rw [hsd] at hok
                          dsimp only at hok
                          cases Except.ok.inj hok
                          exact ⟨rfl, rfl, rfl, rfl⟩
                  | none =>
                      rw [hc] at hok
                      dsimp only at hok
                      cases Except.ok.inj hok
                      exact ⟨rfl, rfl, rfl, rfl⟩

/-- Outside require-restore mode the restore step never fails. -/
theorem restoreStep_false_ok (backupScope timestamp : String)
    (st : EngineState) (resourceName : String) :
    ∃ st', restoreStep false backupScope timestamp st resourceName = .ok st' := by
  unfold restoreStep
  cases hl : alookup st.desired resourceName with
  | none => exact ⟨st, rfl⟩
  | some r =>
      cases r with
      | none => exact ⟨st, rfl⟩
      | some fields =>
          simp only [Bool.not_false, if_true, Bool.and_true]
          cases hsp : shouldProcessResource fields resourceName backupScope with
          | false => simp
          | true =>
              simp only [Bool.not_true, Bool.false_eq_true, if_false]
              cases hc : st.cache with
              | some comp =>
                  dsimp only
                  cases hsd : alookup comp resourceName with
                  | some sd => simp
                  | none => simp
              | none => simp

/-- Outside require-restore mode the restore pass succeeds and changes
neither the observed map, the store, the event log nor the in-memory
record set. -/
theorem restorePhase_false_frame (backupScope timestamp : String)
    (names : List String) (st : EngineState) :
    ∃ st', restorePhase false backupScope timestamp st names = .ok st' ∧
      st'.observed = st.observed ∧ st'.store = st.store ∧ st'.events = st.events ∧
      st'.cache = st.cache := by
  induction names generalizing st with
  | nil => exact ⟨st, rfl, rfl, rfl, rfl, rfl⟩
  | cons n ns ih =>
      obtain ⟨s1, hs1⟩ := restoreStep_false_ok backupScope timestamp st n
      obtain ⟨sf, hsf, hf1, hf2, hf3, hf4⟩ := ih s1
      obtain ⟨hg1, hg2, hg3, hg4⟩ :=
        restoreStep_frame false backupScope timestamp st n s1 hs1
      refine ⟨sf, ?_, hf1.trans hg1, hf2.trans hg2, hf3.trans hg3, hf4.trans hg4⟩
      rw [restorePhase, List.foldlM_cons, hs1]
      exact hsf

/-- A capture step only ever touches the `resourceShouldProcess` cache of
the engine state. -/
theorem captureStep_frame (backupScope : String) (nd : RecordSet) (st : EngineState)
    (n : String) :
    (captureStep backupScope (nd, st) n).2.observed = st.observed ∧
    (captureStep backupScope (nd, st) n).2.store = st.store ∧
    (captureStep backupScope (nd, st) n).2.events = st.events ∧
    (captureStep backupScope (nd, st) n).2.cache = st.cache ∧
    (captureStep backupScope (nd, st) n).2.desired = st.desired := by
  unfold captureStep
  dsimp only
  cases hl : alookup st.observed n with
  | none => exact ⟨rfl, rfl, rfl, rfl, rfl⟩
  | some r =>
      cases r with
      | none => exact ⟨rfl, rfl, rfl, rfl, rfl⟩
      | some fields =>
          cases hsp : alookup st.spCache n with
          | some b =>
              dsimp only
              split
              · exact ⟨rfl, rfl, rfl, rfl, rfl⟩
              · exact ⟨rfl, rfl, rfl, rfl, rfl⟩
          | none =>
              dsimp only
              split
              · exact ⟨rfl, rfl, rfl, rfl, rfl⟩
              · exact ⟨rfl, rfl, rfl, rfl, rfl⟩

/-- When every observed member's candidates already match its tracking
annotations, a capture step adds nothing to the new-records batch. -/
theorem captureStep_matched (backupScope : String) (nd : RecordSet) (st : EngineState)
    (n : String) (hmatch : ∀ p ∈ st.observed, captureMatched p = true) :
    (captureStep backupScope (nd, st) n).1 = nd := by
  unfold captureStep
  dsimp only
  cases hl : alookup st.observed n with
  | none => rfl
  | some r =>
      cases r with
      | none => rfl
      | some fields =>
          have hmem : ∃ p, p ∈ st.observed ∧ p.2 = some fields := by
            unfold alookup at hl
            cases hf : st.observed.find? (fun p => p.1 == n) with
            | none => rw [hf] at hl; simp at hl
            | some p =>
                rw [hf] at hl
                have hl' : p.2 = some fields := by simpa using hl
                exact ⟨p, List.mem_of_find?_eq_some hf, hl'⟩
          obtain ⟨p, hp, hp2⟩ := hmem
          have hm := hmatch p hp
          rw [show p = (p.1, p.2) from rfl, hp2] at hm
          simp only [captureMatched, Bool.and_eq_true, Bool.or_eq_true, beq_iff_eq] at hm
          rcases hm with ⟨hm1, hm2⟩
          cases hsp : alookup st.spCache n with
          | some b =>
              dsimp only
              rcases hm1 with h | h <;> rcases hm2 with h2 | h2 <;> simp [h, h2]
          | none =>
              dsimp only
              rcases hm1 with h | h <;> rcases hm2 with h2 | h2 <;> simp [h, h2]

/-- Under matched tracking annotations the whole capture pass produces an
empty batch and leaves everything but the `resourceShouldProcess` cache
unchanged. -/
theorem capturePhase_matched (backupScope : String) (names : List String) :
    ∀ (nd : RecordSet) (st : EngineState),
      (∀ p ∈ st.observed, captureMatched p = true) →
      (names.foldl (captureStep backupScope) (nd, st)).1 = nd ∧
      (names.foldl (captureStep backupScope) (nd, st)).2.observed = st.observed ∧
      (names.foldl (captureStep backupScope) (nd, st)).2.store = st.store ∧
      (names.foldl (captureStep backupScope) (nd, st)).2.events = st.events ∧
      (names.foldl (captureStep backupScope) (nd, st)).2.cache = st.cache ∧
      (names.foldl (captureStep backupScope) (nd, st)).2.desired = st.desired := by
  induction names with
  | nil => intro nd st h; exact ⟨rfl, rfl, rfl, rfl, rfl, rfl⟩
  | cons n ns ih =>
      intro nd st h
      rw [List.foldl_cons,
        show captureStep backupScope (nd, st) n =
          ((captureStep backupScope (nd, st) n).1, (captureStep backupScope (nd, st) n).2)
          from rfl,
        captureStep_matched backupScope nd st n h]
      have hfr := captureStep_frame backupScope nd st n
      have h2 : ∀ p ∈ (captureStep backupScope (nd, st) n).2.observed,
          captureMatched p = true := by
        rw [hfr.1]; exact h
      obtain ⟨a, b, c, d, e, f⟩ := ih nd (captureStep backupScope (nd, st) n).2 h2
      exact ⟨a, b.trans hfr.1, c.trans hfr.2.1, d.trans hfr.2.2.1, e.trans hfr.2.2.2.1,
        f.trans hfr.2.2.2.2⟩

/-- Every record a single capture step adds satisfies `capturedDiffers`. -/
theorem captureStep_mem (backupScope : String) (nd : RecordSet) (st : EngineState)
    (n : String)
    (hinv : ∀ name data, alookup nd name = some data → capturedDiffers st.observed name data) :
    ∀ name data, alookup (captureStep backupScope (nd, st) n).1 name = some data →
      capturedDiffers st.observed name data := by
  intro name data h
  unfold captureStep at h
  dsimp only at h
  cases hl : alookup st.observed n with
  | none => rw [hl] at h; exact hinv name data h
  | some r =>
      cases r with
      | none => rw [hl] at h; exact hinv name data h
      | some fields =>
          rw [hl] at h
          dsimp only at h
          have hcore : ∀ (spB : Bool) (stX : EngineState),
              alookup ((if ((spB && (getAnnValue fields "crossplane.io/external-name" != "") &&
                      (getAnnValue fields StoredExternalNameAnn !=
                        getAnnValue fields "crossplane.io/external-name")) ||
                    ((getMetadataName fields != "") &&
                      (getAnnValue fields StoredResourceNameAnn != getMetadataName fields)))
                    = true then
                  (aset nd n
                    { externalName :=
                        if spB && (getAnnValue fields "crossplane.io/external-name" != "") &&
                            (getAnnValue fields StoredExternalNameAnn !=
                              getAnnValue fields "crossplane.io/external-name") then
                          getAnnValue fields "crossplane.io/external-name" else ""
                      resourceName :=
                        if (getMetadataName fields != "") &&
                            (getAnnValue fields StoredResourceNameAnn !=
                              getMetadataName fields) then
                          getMetadataName fields else "" }, stX)
                else (nd, stX)).1) name = some data →
              capturedDiffers st.observed name data := by
            intro spB stX hset
            by_cases hcond : ((spB && (getAnnValue fields "crossplane.io/external-name" != "") &&
                (getAnnValue fields StoredExternalNameAnn !=
                  getAnnValue fields "crossplane.io/external-name")) ||
                ((getMetadataName fields != "") &&
                  (getAnnValue fields StoredResourceNameAnn != getMetadataName fields))) = true
            · rw [if_pos hcond] at hset
              dsimp only at hset
              rcases alookup_aset_cases nd n name _ data hset with ⟨hnk, hdk⟩ | ⟨hnk, hold⟩
              · subst hnk
                subst hdk
                refine ⟨fields, hl, ?_, ?_, ?_⟩
                · cases h1 : (spB && (getAnnValue fields "crossplane.io/external-name" != "") &&
                      (getAnnValue fields StoredExternalNameAnn !=
                        getAnnValue fields "crossplane.io/external-name")) with
                  | true =>
                      left
                      have h1d := h1
                      simp only [Bool.and_eq_true, bne_iff_ne] at h1d
                      simp [h1, h1d.1.2]
                  | false =>
                      right
                      rw [h1] at hcond
                      simp only [Bool.false_or] at hcond
                      have hcd := hcond
                      simp only [Bool.and_eq_true, bne_iff_ne] at hcd
                      simp [hcond, hcd.1]
                · intro hne
                  cases h1 : (spB && (getAnnValue fields "crossplane.io/external-name" != "") &&
                      (getAnnValue fields StoredExternalNameAnn !=
                        getAnnValue fields "crossplane.io/external-name")) with
                  | true =>
                      have h1d := h1
                      simp only [Bool.and_eq_true, bne_iff_ne] at h1d
                      refine ⟨by simp [h1], ?_⟩
                      simp only [h1, if_true]
                      exact h1d.2
                  | false => simp [h1] at hne
                · intro hne
                  cases h2 : ((getMetadataName fields != "") &&
                      (getAnnValue fields StoredResourceNameAnn != getMetadataName fields)) with
                  | true =>
                      have h2d := h2
                      simp only [Bool.and_eq_true, bne_iff_ne] at h2d
                      refine ⟨by simp [h2], ?_⟩
                      simp only [h2, if_true]
                      exact h2d.2
                  | false => simp [h2] at hne
              · exact hinv name data hold
            · rw [if_neg hcond] at hset
              exact hinv name data hset
          cases hsp : alookup st.spCache n with
          | some b =>
              rw [hsp] at h
              dsimp only at h
              exact hcore b _ h
          | none =>
              rw [hsp] at h
              dsimp only at h
              exact hcore (shouldProcessResource fields n backupScope) _ h

/-- Every record the whole capture pass emits satisfies
`capturedDiffers`. -/
theorem capturePhase_mem (backupScope : String) (names : List String) :
    ∀ (st : EngineState) (nd : RecordSet),
      (∀ name data, alookup nd name = some data → capturedDiffers st.observed name data) →
      ∀ name data,
        alookup (names.foldl (captureStep backupScope) (nd, st)).1 name = some data →
        capturedDiffers st.observed name data := by
  induction names with
  | nil => intro st nd hinv name data h; exact hinv name data h
  | cons n ns ih =>
      intro st nd hinv name data h
      rw [List.foldl_cons,
        show captureStep backupScope (nd, st) n =
          ((captureStep backupScope (nd, st) n).1, (captureStep backupScope (nd, st) n).2)
          from rfl] at h
      have hfr := captureStep_frame backupScope nd st n
      have hinv' : ∀ name data,
          alookup (captureStep backupScope (nd, st) n).1 name = some data →
          capturedDiffers (captureStep backupScope (nd, st) n).2.observed name data := by
        rw [hfr.1]
        exact captureStep_mem backupScope nd st n hinv
      have hres := ih (captureStep backupScope (nd, st) n).2
        (captureStep backupScope (nd, st) n).1 hinv' name data h
      rwa [hfr.1] at hres

/-- Second-run behavior: under a steady state (no retire decision fires,
every observed member's candidates match its tracking annotations, the
loaded set is non-empty) the run issues no save call and the store is
unchanged. -/
theorem runFunction_steady_state_no_save (req : RunFunctionRequest) (timestamp : String)
    (store : MockStore)
    (hen : shouldEnableExternalStore req = true)
    (hmock : (getConfigFromAnns req).storeType = "mock")
    (hpurge : shouldPurgeExternalStore req = false)
    (hrr : shouldRequireRestore req = false)
    (hload : mockLoad store (clusterIDOf req) (compositionKeyOf req) ≠ [])
    (hretire : ∀ n ∈ req.desiredResources.map Prod.fst,
        retireDecision req.desiredResources req.observedResources n = false)
    (hmatch : ∀ p ∈ req.observedResources, captureMatched p = true) :
    (runFunction req timestamp store).events.all (fun e => !e.isSave) = true ∧
    (runFunction req timestamp store).store = store := by
  have h1 : (("mock" : String) == "awsdynamodb") = false := by decide
  have h2 : (("mock" : String) == "k8sconfigmap") = false := by decide
  have h3 : (("mock" : String) != "mock") = false := by decide
  simp only [runFunction, hen, hmock, hpurge, hrr, h1, h2, h3, Bool.not_true,
    Bool.false_eq_true, if_false, Bool.or_self, Bool.false_and, if_true]
  have hret : (req.desiredResources.map Prod.fst).foldl
      (retireEntry (clusterIDOf req) (compositionKeyOf req) timestamp)
      { desired := req.desiredResources, observed := req.observedResources, spCache := [],
        cache := some (mockLoad store (clusterIDOf req) (compositionKeyOf req)),
        store := store,
        events := [StoreEvent.load (clusterIDOf req) (compositionKeyOf req)] } =
      { desired := req.desiredResources, observed := req.observedResources, spCache := [],
        cache := some (mockLoad store (clusterIDOf req) (compositionKeyOf req)),
        store := store,
        events := [StoreEvent.load (clusterIDOf req) (compositionKeyOf req)] } :=
    retirePhase_noop (clusterIDOf req) (compositionKeyOf req) timestamp
      (req.desiredResources.map Prod.fst) _ (fun n hn => hretire n hn)
  rw [hret]
  have hepc : emptyPurgeCheck (clusterIDOf req) (compositionKeyOf req)
      { desired := req.desiredResources, observed := req.observedResources, spCache := [],
        cache := some (mockLoad store (clusterIDOf req) (compositionKeyOf req)),
        store := store,
        events := [StoreEvent.load (clusterIDOf req) (compositionKeyOf req)] } =
      { desired := req.desiredResources, observed := req.observedResources, spCache := [],
        cache := some (mockLoad store (clusterIDOf req) (compositionKeyOf req)),
        store := store,
        events := [StoreEvent.load (clusterIDOf req) (compositionKeyOf req)] } :=
    emptyPurgeCheck_noop (clusterIDOf req) (compositionKeyOf req) _
      (mockLoad store (clusterIDOf req) (compositionKeyOf req)) rfl hload
  rw [hepc]
  obtain ⟨st3, hok, ho, hs, hev, hc⟩ :=
    restorePhase_false_frame (getConfigFromAnns req).backupScope timestamp
      (req.desiredResources.map Prod.fst)
      { desired := req.desiredResources, observed := req.observedResources, spCache := [],
        cache := some (mockLoad store (clusterIDOf req) (compositionKeyOf req)),
        store := store,
        events := [StoreEvent.load (clusterIDOf req) (compositionKeyOf req)] }
  rw [hok]
  dsimp only
  have hmatch3 : ∀ p ∈ st3.observed, captureMatched p = true := by
    rw [ho]
    exact hmatch
  have hcap := capturePhase_matched (getConfigFromAnns req).backupScope
    (req.observedResources.map Prod.fst) [] st3 hmatch3
  have hcap1 : (capturePhase (getConfigFromAnns req).backupScope st3
      (req.observedResources.map Prod.fst)).1 = [] := hcap.1
  rw [hcap1]
  have hcsave : captureSave (clusterIDOf req) (compositionKeyOf req) timestamp false []
      (req.desiredResources.map Prod.fst)
      (capturePhase (getConfigFromAnns req).backupScope st3
        (req.observedResources.map Prod.fst)).2 =
      (capturePhase (getConfigFromAnns req).backupScope st3
        (req.observedResources.map Prod.fst)).2 := rfl
  rw [hcsave]
  have hevents : (capturePhase (getConfigFromAnns req).backupScope st3
      (req.observedResources.map Prod.fst)).2.events =
      [StoreEvent.load (clusterIDOf req) (compositionKeyOf req)] :=
    (hcap.2.2.2.1).trans hev
  have hstore : (capturePhase (getConfigFromAnns req).backupScope st3
      (req.observedResources.map Prod.fst)).2.store = store :=
    (hcap.2.2.1).trans hs
  rw [hevents, hstore]
  exact ⟨by simp [StoreEvent.isSave], rfl⟩

/-- C3.  Idempotence of capture: running the engine with observed state
already matching its tracking annotations (as after a first successful run),
with a non-empty persisted set and no retire decision firing, issues no save
call and leaves the persisted record set identical; and a member joins the
new-records batch only when a candidate value differs byte-for-byte from
its last-tracked annotation value. -/
theorem c3_idempotent_capture :
    (∀ (req : RunFunctionRequest) (timestamp : String) (store : MockStore),
      shouldEnableExternalStore req = true →
      (getConfigFromAnns req).storeType = "mock" →
      shouldPurgeExternalStore req = false →
      shouldRequireRestore req = false →
      mockLoad store (clusterIDOf req) (compositionKeyOf req) ≠ [] →
      (∀ n ∈ req.desiredResources.map Prod.fst,
        retireDecision req.desiredResources req.observedResources n = false) →
      (∀ p ∈ req.observedResources, captureMatched p = true) →
      (runFunction req timestamp store).events.all (fun e => !e.isSave) = true ∧
      (runFunction req timestamp store).store = store) ∧
    (∀ (backupScope : String) (st : EngineState) (names : List String)
        (resourceName : String) (data : ResourceData),
      alookup (capturePhase backupScope st names).1 resourceName = some data →
      capturedDiffers st.observed resourceName data) :=
  ⟨fun req timestamp store hen hmock hpurge hrr hload hretire hmatch =>
    runFunction_steady_state_no_save req timestamp store hen hmock hpurge hrr hload
      hretire hmatch,
   fun backupScope st names resourceName data h =>
    capturePhase_mem backupScope names st []
      (fun name data hh => by simp [alookup_nil] at hh) resourceName data h⟩

/-- Witness for C3: the steady-state second run of the concrete scenario
issues no save and keeps the store; and the batch entry produced by a
changed external name differs from its tracked value. -/
theorem c3_idempotent_capture_witness :
    ((runFunction reqIdem "T" storeIdem).events.all (fun e => !e.isSave) = true ∧
     (runFunction reqIdem "T" storeIdem).store = storeIdem) ∧
    capturedDiffers fixCaptureDiffState.observed "m" { externalName := "y" } :=
  ⟨c3_idempotent_capture.1 reqIdem "T" storeIdem (by decide) (by decide) (by decide)
      (by decide) (by decide) (by decide) (by decide),
   c3_idempotent_capture.2 "orphaned" fixCaptureDiffState ["m"] "m"
      { externalName := "y" } rfl⟩

end ENBR
